import Mathlib

/-!
Formal model of the `kheops-client` core, shallowly embedded from
`src/kheops_client/_utils.py` and `src/kheops_client/_client.py`.

Conventions of the embedding:
* DICOM attribute values, table cells and wire values are all `DValue`.
* A pydicom `Dataset` is an association list of attributes.
* pandas `DataFrame`s become `Frame` (a column list plus a row list).
* The filesystem is an explicit association list from path strings to
  nodes; functions with filesystem effects return `FS × Except String α`,
  so that a raised exception still leaves the mutated filesystem visible.
* Python exceptions become `Except.error` with a message recording the
  exception type.
* Python `int(s)` on the string components of a UID is modelled by
  `pyInt` (an optional sign followed by decimal digits; Python would
  additionally strip surrounding whitespace and accept inner
  underscores, forms that do not occur in dot-delimited UIDs), and
  `uid.split(".")` by `splitDots`.
-/

namespace KheopsClient

/-- Values stored in DICOM datasets and table cells: scalar strings,
integers (file sizes), multi-values (sequences), binary bulk data, and
unresolved bulk-data URI references. -/
inductive DValue where
  | str : String → DValue
  | num : Int → DValue
  | seq : List DValue → DValue
  | bytes : String → DValue
  | uri : String → DValue

/-- Models `flatten` from `_utils.py`:
`value[0] if value is not None and len(value)==1 else value`.
The call sites pass `None` or a DICOM JSON `Value` list (a sequence).
For a scalar string `s`, Python would compute `len(s)` and `s[0]`, and a
one-character string indexes to itself, so the identity on scalars is
faithful there as well. -/
def flatten : Option DValue → Option DValue
  | some (.seq [v]) => some v
  | v => v

/-- Models a pydicom `Dataset`: an association list from attribute
keywords to values. -/
structure Dataset where
  attrs : List (String × DValue)

/-- Models `Dataset.get(keyword, default=None)`. -/
def Dataset.get (d : Dataset) (k : String) : Option DValue :=
  (d.attrs.find? (fun p => p.1 == k)).map (fun p => p.2)

/-- Models plain attribute access (`inst.SeriesInstanceUID`) for the
string attributes the writer reads; the datasets handled there always
carry these attributes as scalar strings. -/
def Dataset.attrStr (d : Dataset) (k : String) : String :=
  match d.get k with
  | some (.str s) => s
  | _ => ""

/-- Abstract serialized byte size of a dataset, standing in for
`path.stat().st_size` after `inst.save_as(path)`: a concrete function of
the dataset content. -/
def DValue.vsize : DValue → Nat
  | .str s => s.length
  | .num _ => 1
  | .seq vs => vs.length
  | .bytes s => s.length
  | .uri s => s.length

def Dataset.encSize (d : Dataset) : Nat :=
  (d.attrs.map (fun p => p.1.length + p.2.vsize)).sum

/-- Models a pandas `DataFrame`: named columns and rows of cells; a cell
holds `none` where the frame holds a null (`None`/`NaN`). -/
structure Frame where
  columns : List String
  rows : List (List (Option DValue))

/-- Position of a column label in a column list (pandas column lookup). -/
def colIndex : List String → String → Option Nat
  | [], _ => none
  | c :: cs, k => if c = k then some 0 else (colIndex cs k).map (fun j => j + 1)

/-- Cell of a row at a column position. Rows of every frame built below
have exactly one cell per column, so the out-of-bounds default is never
reached on frames produced by the model. -/
def rowCell (r : List (Option DValue)) (j : Nat) : Option DValue :=
  (r[j]?).getD none

/-- Cell of a row addressed by column label (`row["StudyInstanceUID"]`). -/
def cellAt (cols : List String) (r : List (Option DValue)) (k : String) :
    Option DValue :=
  match colIndex cols k with
  | some j => rowCell r j
  | none => none

/-- Models `dicoms_to_frame` from `_utils.py`: one row per dataset, one
column per requested keyword in the requested order, each cell filled by
`d.get(keyword, default=None)`. -/
def dicoms_to_frame (dicoms : List Dataset) (keywords : List String) : Frame :=
  { columns := keywords,
    rows := dicoms.map (fun d => keywords.map (fun k => d.get k)) }

/-- Splitting a character list at every dot, as Python
`str.split(".")` does: the empty string yields one empty component, and
separators at the ends yield empty components. -/
def splitDotsChars : List Char → List (List Char)
  | [] => [[]]
  | c :: cs =>
    if c = '.' then [] :: splitDotsChars cs
    else
      match splitDotsChars cs with
      | [] => [[c]]
      | g :: gs => (c :: g) :: gs

/-- Models `uid.split(".")`. -/
def splitDots (s : String) : List String :=
  (splitDotsChars s.toList).map (fun cs => String.mk cs)

def charDigit (c : Char) : Option Nat :=
  if c.isDigit then some (c.toNat - '0'.toNat) else none

def parseDigitsAux : List Char → Nat → Option Nat
  | [], acc => some acc
  | c :: cs, acc =>
    match charDigit c with
    | some d => parseDigitsAux cs (acc * 10 + d)
    | none => none

def parseDigits : List Char → Option Nat
  | [] => none
  | cs => parseDigitsAux cs 0

/-- Models Python `int(s)` on a UID component: an optional sign followed
by at least one decimal digit.  (Python would additionally strip
surrounding whitespace and accept inner underscores; such forms do not
occur in dot-delimited UID components.) -/
def pyInt (s : String) : Option Int :=
  match s.toList with
  | '-' :: cs => (parseDigits cs).map (fun n => -(n : Int))
  | '+' :: cs => (parseDigits cs).map (fun n => (n : Int))
  | cs => (parseDigits cs).map (fun n => (n : Int))

/-- Models the inner `uid_key` of `sort_frame_by_uid` from `_utils.py`.

The Python code splits the UID on dots and attempts
`tuple(map(int, uid))`.  On success the integer tuple is the key.  If a
component fails `int()`, a `ValueError` is raised and the handler runs
`if not "invalid literal for int()" in e: raise` — a membership test on
the exception object itself (not on `str(e)`), which raises
`TypeError: argument of type 'ValueError' is not iterable`.  So for any
component that fails integer conversion the function raises; the
intended string fallback is unreachable. -/
def uid_key (uid : String) : Except String (List Int) :=
  match (splitDots uid).mapM pyInt with
  | some ks => .ok ks
  | none => .error "TypeError: argument of type ValueError is not iterable"

/-- Key of one cell of the sort column: `uid_key` is applied to each
element of the pandas column, so a null cell or a non-string cell would
fail at `uid.split(".")`. -/
def cell_key : Option DValue → Except String (List Int)
  | some (.str s) => uid_key s
  | _ => .error "AttributeError: split"

/-- Sequential evaluation of a loop body over a list where an exception
aborts the loop: the evaluation order of list comprehensions and of the
row-wise key computation. -/
def exceptMapM {α β : Type} (f : α → Except String β) :
    List α → Except String (List β)
  | [] => .ok []
  | x :: xs =>
    match f x with
    | .error e => .error e
    | .ok y =>
      match exceptMapM f xs with
      | .error e => .error e
      | .ok ys => .ok (y :: ys)

/-- Executable strict lexicographic comparison of integer tuples, as
Python compares tuples of ints. -/
def tupleLtB : List Int → List Int → Bool
  | [], [] => false
  | [], _ :: _ => true
  | _ :: _, [] => false
  | a :: as, b :: bs => a < b || (a == b && tupleLtB as bs)

/-- Non-strict counterpart used as the sort relation. -/
def tupleLeB (a b : List Int) : Bool := !(tupleLtB b a)

/-- The relation by which keyed rows are sorted. -/
def rowKeyLe (p q : List Int × List (Option DValue)) : Prop :=
  tupleLeB p.1 q.1 = true

instance : DecidableRel rowKeyLe := fun p q =>
  inferInstanceAs (Decidable (tupleLeB p.1 q.1 = true))

/-- Models `sort_frame_by_uid` from `_utils.py`: compute `uid_key` for
every cell of the `by` column (the first failing cell raises), then sort
the rows by the resulting integer tuples. -/
def sort_frame_by_uid (df : Frame) (by_col : String) : Except String Frame :=
  match colIndex df.columns by_col with
  | none => .error ("KeyError: " ++ by_col)
  | some j =>
    match exceptMapM (fun r => (cell_key (rowCell r j)).map (fun k => (k, r))) df.rows with
    | .error e => .error e
    | .ok keyed =>
      .ok { columns := df.columns,
            rows := (List.insertionSort rowKeyLe keyed).map (fun p => p.2) }

/-! ### Wire records and `dicomize_json_result(s)` -/

/-- A DICOM JSON wire record: plain metadata attributes plus bulk-data
attributes referenced by URI. -/
structure JsonRecord where
  meta : List (String × DValue)
  bulk : List (String × String)

/-- Models `pydicom.dataset.Dataset.from_json(data, bulk_data_uri_handler=h)`:
metadata attributes are kept; each bulk-data attribute becomes the bytes
produced by the handler when one is given, and stays an unresolved URI
reference when the handler is `None`. -/
def datasetFromJson (d : JsonRecord) (handler : Option (String → String)) :
    Dataset :=
  { attrs := d.meta ++ d.bulk.map (fun p =>
      match handler with
      | some h => (p.1, DValue.bytes (h p.2))
      | none => (p.1, DValue.uri p.2)) }

/-- Models `dicomize_json_result` from `_utils.py` (Python default
`meta_only=True` is passed explicitly at every call of this model):
with `meta_only` the bulk-data handler returns empty bytes, otherwise
no handler is passed. -/
def dicomize_json_result (data : JsonRecord) (meta_only : Bool) : Dataset :=
  datasetFromJson data (if meta_only then some (fun _ => "") else none)

/-- Models `dicomize_json_results` from `_utils.py`.  The body is
`[dicomize_json_result(d) for d in data]`: the `meta_only` parameter of
the outer function is not forwarded, so the inner conversion always
runs with its default `True`. -/
def dicomize_json_results (data : List JsonRecord) (meta_only : Bool) :
    List Dataset :=
  data.map (fun d => dicomize_json_result d true)

/-! ### Filesystem model and the output writer -/

/-- A filesystem node: a stored DICOM object, a stored CSV table, or a
directory. -/
inductive Node where
  | dicomFile : Dataset → Node
  | csvFile : Frame → Node
  | dir : Node

/-- The filesystem: paths are opaque strings; later entries shadow
earlier ones (`fsInsert` prepends). -/
def FS := List (String × Node)

def fsLookup (fs : FS) (p : String) : Option Node :=
  ((fs : List (String × Node)).find? (fun e => e.1 == p)).map (fun e => e.2)

def fsInsert (fs : FS) (p : String) (n : Node) : FS :=
  ((p, n) :: (fs : List (String × Node)) : List (String × Node))

/-- Models `path.is_file()`. -/
def isFileAt (fs : FS) (p : String) : Bool :=
  match fsLookup fs p with
  | some (.dicomFile _) => true
  | some (.csvFile _) => true
  | _ => false

/-- Models `path.is_dir()`. -/
def isDirAt (fs : FS) (p : String) : Bool :=
  match fsLookup fs p with
  | some .dir => true
  | _ => false

/-- Models `ensure_dir` from `_utils.py`:
`if not path.is_dir(): path.mkdir(parents=True, exist_ok=forced)` then
return `path.is_dir()`.  When the path is already a directory nothing
happens; when it does not exist `mkdir` creates it (ancestor creation by
`parents=True` is abstracted away, paths being opaque); when it exists
as a non-directory `mkdir` raises `FileExistsError` for either value of
`exist_ok`.  `exist_ok=forced` would only matter under a concurrent
creation race, so `forced` never affects the outcome. -/
def ensure_dir (fs : FS) (path : String) (forced : Bool) :
    FS × Except String Bool :=
  if isDirAt fs path then (fs, .ok true)
  else
    match fsLookup fs path with
    | some _ => (fs, .error ("FileExistsError: " ++ path))
    | none => (fsInsert fs path .dir, .ok true)

/-- Models `KheopsClient._ensure_ouput_dir` (spelling as in the source):
substitute the default output directory, ensure it exists, and raise
`RuntimeError` if it is still not a directory afterwards. -/
def _ensure_ouput_dir (fs : FS) (out_dir : Option String)
    (default_out_dir : String) (forced : Bool) : FS × Except String String :=
  match ensure_dir fs (out_dir.getD default_out_dir) forced with
  | (fs', .ok true) => (fs', .ok (out_dir.getD default_out_dir))
  | (fs', .ok false) => (fs', .error "RuntimeError: Failed to create output directory.")
  | (fs', .error e) => (fs', .error e)

/-- Summary-table column sets, from `KheopsClient`. -/
def STUDY_KEYS : List String :=
  ["StudyInstanceUID", "PatientID", "StudyDate", "ModalitiesInStudy"]

def SERIES_KEYS : List String :=
  ["StudyInstanceUID", "SeriesInstanceUID",
   "PatientID", "SeriesDate", "Modality", "RetrieveURL"]

def INSTANCE_KEYS : List String :=
  ["StudyInstanceUID", "SeriesInstanceUID", "SOPInstanceUID",
   "PatientID", "SeriesDate", "Modality"]

/-- Directory into which one instance is written:
`out_dir / inst.SeriesInstanceUID`. -/
def seriesDir (odir : String) (inst : Dataset) : String :=
  odir ++ "/" ++ inst.attrStr "SeriesInstanceUID"

/-- Target file of one instance:
`out_dir / inst.SeriesInstanceUID / (inst.SOPInstanceUID + ".dcm")`. -/
def instPath (odir : String) (inst : Dataset) : String :=
  seriesDir odir inst ++ "/" ++ inst.attrStr "SOPInstanceUID" ++ ".dcm"

/-- Insertion into the `file_sizes` Python dict: an existing key keeps
its position and gets the new value, a new key is appended. -/
def dictInsert (l : List (String × Nat)) (k : String) (v : Nat) :
    List (String × Nat) :=
  if l.any (fun p => p.1 == k) then
    l.map (fun p => if p.1 == k then (k, v) else p)
  else l ++ [(k, v)]

def dictLookup (l : List (String × Nat)) (k : String) : Option Nat :=
  (l.find? (fun p => p.1 == k)).map (fun p => p.2)

/-- The per-instance loop of `_write_instances`: ensure the series
directory exists, then write the file unless it already exists and
`forced` is not set, in which case a `FileExistsError` aborts the batch.
`inst.save_as(path)` onto a path that exists as a directory raises
`IsADirectoryError` (the `is_file` test passes a directory through).
Successfully written files stay in the filesystem when a later instance
raises. -/
def writeLoop (forced : Bool) (odir : String) :
    List Dataset → FS → List (String × Nat) → FS × Except String (List (String × Nat))
  | [], fs, sizes => (fs, .ok sizes)
  | inst :: rest, fs, sizes =>
    match ensure_dir fs (seriesDir odir inst) forced with
    | (fs', .error e) => (fs', .error e)
    | (fs', .ok _) =>
      if !isFileAt fs' (instPath odir inst) || forced then
        if isDirAt fs' (instPath odir inst) then
          (fs', .error ("IsADirectoryError: " ++ instPath odir inst))
        else
          let fs'' := fsInsert fs' (instPath odir inst) (.dicomFile inst)
          writeLoop forced odir rest fs''
            (dictInsert sizes (inst.attrStr "SOPInstanceUID") inst.encSize)
      else
        (fs', .error ("FileExistsError: File already exists: " ++ instPath odir inst))

/-- One row of the size merge: a row whose `SOPInstanceUID` is a key of
the size mapping gets the `FileSize` cell appended; any other row (null
or unmatched key) is dropped by the inner join. -/
def mergeRow (cols : List String) (sizes : List (String × Nat))
    (r : List (Option DValue)) : Option (List (Option DValue)) :=
  match cellAt cols r "SOPInstanceUID" with
  | some (.str uid) =>
    match dictLookup sizes uid with
    | some n => some (r ++ [some (.num (n : Int))])
    | none => none
  | _ => none

/-- Models `df.merge(file_sizes, left_on="SOPInstanceUID", right_index=True)`:
an inner join that keeps the left rows whose `SOPInstanceUID` is a key of
the size mapping, in left order, appending the `FileSize` column. -/
def mergeFileSizes (df : Frame) (sizes : List (String × Nat)) : Frame :=
  { columns := df.columns ++ ["FileSize"],
    rows := df.rows.filterMap (mergeRow df.columns sizes) }

/-- Models `KheopsClient._write_instances`.  The client state is reduced
to the `dry_run` flag and the default output directory; the progress bar
is cosmetic and omitted.  Order of operations as in the source: build
and sort the table first (so a UID that fails the sort key raises even
in dry-run mode), return it unchanged in dry-run mode, otherwise ensure
the output directory, run the write loop, and merge the recorded file
sizes into the table. -/
def _write_instances (dry_run : Bool) (default_out_dir : String) (fs : FS)
    (instances : List Dataset) (out_dir : Option String) (forced : Bool) :
    FS × Except String Frame :=
  match sort_frame_by_uid (dicoms_to_frame instances INSTANCE_KEYS) "SOPInstanceUID" with
  | .error e => (fs, .error e)
  | .ok df =>
    if dry_run then (fs, .ok df)
    else
      match _ensure_ouput_dir fs out_dir default_out_dir forced with
      | (fs', .error e) => (fs', .error e)
      | (fs', .ok odir) =>
        match writeLoop forced odir instances fs' [] with
        | (fs'', .error e) => (fs'', .error e)
        | (fs'', .ok sizes) => (fs'', .ok (mergeFileSizes df sizes))

/-- Models `KheopsClient._write_table`: a no-op in dry-run mode,
otherwise ensure the output directory (always with `forced=True`) and
create `<label>_<timestamp>.csv` there.  The timestamp is passed in
explicitly. -/
def _write_table (dry_run : Bool) (default_out_dir : String) (fs : FS)
    (df : Frame) (out_dir : Option String) (label : String) (now : String) :
    FS × Except String Unit :=
  if dry_run then (fs, .ok ())
  else
    match _ensure_ouput_dir fs out_dir default_out_dir true with
    | (fs', .error e) => (fs', .error e)
    | (fs', .ok odir) =>
      (fsInsert fs' (odir ++ "/" ++ label ++ "_" ++ now ++ ".csv") (.csvFile df),
       .ok ())

/-! ### Search and download orchestration -/

/-- The filter set forwarded to the webservice client; consumed
opaquely. -/
def Filters := List (String × String)

/-- The external DICOMweb client boundary: search and retrieve calls
with the exact parameter lists the orchestrators pass.  Study and series
identifiers taken from table rows are passed as raw cell values. -/
structure Env where
  searchForStudies : Filters → Bool → Option Nat → Option Nat → List JsonRecord
  searchForSeries : Option DValue → Filters → Bool → Option Nat → Option Nat → List JsonRecord
  retrieveStudyMetadata : Option DValue → List JsonRecord
  retrieveStudy : Option DValue → List Dataset
  retrieveSeriesMetadata : Option DValue → Option DValue → List JsonRecord
  retrieveSeries : Option DValue → Option DValue → List Dataset

/-- Models `KheopsClient._query_studies`: search, dicomize, tabulate
with `STUDY_KEYS`, sort by `StudyInstanceUID`. -/
def _query_studies (env : Env) (search_filters : Filters) (fuzzy : Bool)
    (limit offset : Option Nat) : Except String Frame :=
  let studies := dicomize_json_results
    (env.searchForStudies search_filters fuzzy limit offset) true
  sort_frame_by_uid (dicoms_to_frame studies STUDY_KEYS) "StudyInstanceUID"

/-- Models `KheopsClient._query_series_for_study`: search the series of
one study, dicomize, tabulate with `SERIES_KEYS`, sort by
`SeriesInstanceUID`. -/
def _query_series_for_study (env : Env) (study_uid : Option DValue)
    (search_filters : Filters) (fuzzy : Bool) (limit offset : Option Nat) :
    Except String Frame :=
  let series := dicomize_json_results
    (env.searchForSeries study_uid search_filters fuzzy limit offset) true
  sort_frame_by_uid (dicoms_to_frame series SERIES_KEYS) "SeriesInstanceUID"

/-- The parameters of one `_query_series_for_study` call issued by the
fan-out loop of `_query_series`. -/
structure SeriesQueryCall where
  study_uid : Option DValue
  search_filters : Filters
  fuzzy : Bool
  limit : Option Nat
  offset : Option Nat

/-- Models `pd.concat(frames, axis=0)` for frames sharing one column
set (the callers concatenate frames built over the same key list); the
empty case is handled by the callers because `pd.concat([])` raises. -/
def frameConcat (frames : List Frame) : Frame :=
  { columns := ((frames.head?).map (fun f => f.columns)).getD [],
    rows := frames.flatMap (fun f => f.rows) }

/-- Models `KheopsClient._query_series`: resolve the matching studies,
then issue one `_query_series_for_study` sub-query per study UID of the
result — with the same filter set and fuzzy flag but `limit=None` and
`offset=None` — concatenate (`pd.concat` raises
`ValueError: No objects to concatenate` on the empty list), and sort by
`SeriesInstanceUID`.  The sub-query parameter records are returned
alongside the frame as the call log of the loop. -/
def _query_series (env : Env) (search_filters : Filters) (fuzzy : Bool)
    (limit offset : Option Nat) :
    Except String (Frame × List SeriesQueryCall) := do
  let studies ← _query_studies env search_filters fuzzy limit offset
  let uids := studies.rows.map (fun r => cellAt studies.columns r "StudyInstanceUID")
  let frames ← exceptMapM (fun u =>
    _query_series_for_study env u search_filters fuzzy none none) uids
  if frames.isEmpty then
    .error "ValueError: No objects to concatenate"
  else do
    let df ← sort_frame_by_uid (frameConcat frames) "SeriesInstanceUID"
    .ok (df, uids.map (fun u =>
      { study_uid := u, search_filters := search_filters, fuzzy := fuzzy,
        limit := none, offset := none }))

/-- Models `KheopsClient._retrieve_single_series` (progress bar
omitted): metadata-only retrieval dicomizes the JSON records with
`meta_only=True`, full retrieval returns stored objects. -/
def _retrieve_single_series (env : Env) (study_uid series_uid : Option DValue)
    (meta_only : Bool) : List Dataset :=
  if meta_only then
    dicomize_json_results (env.retrieveSeriesMetadata study_uid series_uid) true
  else
    env.retrieveSeries study_uid series_uid

/-- Models `KheopsClient._retrieve_single_study`. -/
def _retrieve_single_study (env : Env) (study_uid : Option DValue)
    (meta_only : Bool) : List Dataset :=
  if meta_only then
    dicomize_json_results (env.retrieveStudyMetadata study_uid) true
  else
    env.retrieveStudy study_uid

/-- The row loop of `search_and_download_series`: for every row of the
series table, retrieve the instances of that row (study, series) pair
and write them; an error aborts the loop, keeping the filesystem state
reached so far. -/
def downloadSeriesRows (env : Env) (dry_run : Bool) (default_out_dir : String)
    (meta_only : Bool) (out_dir : Option String) (forced : Bool)
    (cols : List String) :
    List (List (Option DValue)) → FS → FS × Except String (List Frame)
  | [], fs => (fs, .ok [])
  | r :: rs, fs =>
    let dicoms := _retrieve_single_series env
      (cellAt cols r "StudyInstanceUID") (cellAt cols r "SeriesInstanceUID")
      meta_only
    match _write_instances dry_run default_out_dir fs dicoms out_dir forced with
    | (fs', .error e) => (fs', .error e)
    | (fs', .ok dfw) =>
      match downloadSeriesRows env dry_run default_out_dir meta_only out_dir
          forced cols rs fs' with
      | (fs'', .error e) => (fs'', .error e)
      | (fs'', .ok dfs) => (fs'', .ok (dfw :: dfs))

/-- The row loop of `search_and_download_studies`. -/
def downloadStudyRows (env : Env) (dry_run : Bool) (default_out_dir : String)
    (meta_only : Bool) (out_dir : Option String) (forced : Bool)
    (cols : List String) :
    List (List (Option DValue)) → FS → FS × Except String (List Frame)
  | [], fs => (fs, .ok [])
  | r :: rs, fs =>
    let dicoms := _retrieve_single_study env
      (cellAt cols r "StudyInstanceUID") meta_only
    match _write_instances dry_run default_out_dir fs dicoms out_dir forced with
    | (fs', .error e) => (fs', .error e)
    | (fs', .ok dfw) =>
      match downloadStudyRows env dry_run default_out_dir meta_only out_dir
          forced cols rs fs' with
      | (fs'', .error e) => (fs'', .error e)
      | (fs'', .ok dfs) => (fs'', .ok (dfw :: dfs))

/-- Models `KheopsClient.search_and_download_series`: query the series
table; on an empty table return `None` immediately; otherwise download
and write every row, concatenate the per-row tables, sort by
`SOPInstanceUID`, persist the CSV summary, and return the aggregate
table (printing omitted). -/
def search_and_download_series (env : Env) (dry_run : Bool)
    (default_out_dir : String) (fs : FS) (search_filters : Filters)
    (meta_only fuzzy : Bool) (limit offset : Option Nat)
    (out_dir : Option String) (forced : Bool) (now : String) :
    FS × Except String (Option Frame) :=
  match _query_series env search_filters fuzzy limit offset with
  | .error e => (fs, .error e)
  | .ok (df, _) =>
    if df.rows.length == 0 then (fs, .ok none)
    else
      match downloadSeriesRows env dry_run default_out_dir meta_only out_dir
          forced df.columns df.rows fs with
      | (fs', .error e) => (fs', .error e)
      | (fs', .ok dfs) =>
        match sort_frame_by_uid (frameConcat dfs) "SOPInstanceUID" with
        | .error e => (fs', .error e)
        | .ok df_all =>
          match _write_table dry_run default_out_dir fs' df_all out_dir
              "downloaded_series_instances" now with
          | (fs'', .error e) => (fs'', .error e)
          | (fs'', .ok _) => (fs'', .ok (some df_all))

/-- Models `KheopsClient.search_and_download_studies`. -/
def search_and_download_studies (env : Env) (dry_run : Bool)
    (default_out_dir : String) (fs : FS) (search_filters : Filters)
    (meta_only fuzzy : Bool) (limit offset : Option Nat)
    (out_dir : Option String) (forced : Bool) (now : String) :
    FS × Except String (Option Frame) :=
  match _query_studies env search_filters fuzzy limit offset with
  | .error e => (fs, .error e)
  | .ok df =>
    if df.rows.length == 0 then (fs, .ok none)
    else
      match downloadStudyRows env dry_run default_out_dir meta_only out_dir
          forced df.columns df.rows fs with
      | (fs', .error e) => (fs', .error e)
      | (fs', .ok dfs) =>
        match sort_frame_by_uid (frameConcat dfs) "SOPInstanceUID" with
        | .error e => (fs', .error e)
        | .ok df_all =>
          match _write_table dry_run default_out_dir fs' df_all out_dir
              "downloaded_study_instances" now with
          | (fs'', .error e) => (fs'', .error e)
          | (fs'', .ok _) => (fs'', .ok (some df_all))

/-! ### Specification-side definitions used by the theorems -/

/-- The frame is sorted by the integer-tuple key on column `c`: the
column exists, and for any two rows in order whose cells both have a
defined key, the keys are in non-decreasing lexicographic order. -/
def FrameSortedBy (df : Frame) (c : String) : Prop :=
  ∃ j, colIndex df.columns c = some j ∧
    df.rows.Pairwise (fun r r' => ∀ k k',
      cell_key (rowCell r j) = .ok k → cell_key (rowCell r' j) = .ok k' →
      tupleLeB k k' = true)

/-- The filesystem after a successful `ensure_dir`. -/
def dirEnsured (fs : FS) (p : String) : FS :=
  if isDirAt fs p then fs else fsInsert fs p .dir

/-- One successful iteration of the write loop as a filesystem
transformer. -/
def stepFS (odir : String) (fs : FS) (inst : Dataset) : FS :=
  fsInsert (dirEnsured fs (seriesDir odir inst)) (instPath odir inst)
    (.dicomFile inst)

def fsAfter (odir : String) (fs : FS) (l : List Dataset) : FS :=
  l.foldl (stepFS odir) fs

def sizesAfter (sizes : List (String × Nat)) (l : List Dataset) :
    List (String × Nat) :=
  l.foldl (fun sz i => dictInsert sz (i.attrStr "SOPInstanceUID") i.encSize) sizes

/-- Conditions under which one iteration of the write loop succeeds. -/
def stepOK (forced : Bool) (odir : String) (fs : FS) (inst : Dataset) : Prop :=
  isFileAt fs (seriesDir odir inst) = false ∧
  (forced = true ∨
    isFileAt (dirEnsured fs (seriesDir odir inst)) (instPath odir inst) = false) ∧
  isDirAt (dirEnsured fs (seriesDir odir inst)) (instPath odir inst) = false

/-- Conditions under which the whole write loop succeeds. -/
def batchOK (forced : Bool) (odir : String) : FS → List Dataset → Prop
  | _, [] => True
  | fs, inst :: rest =>
    stepOK forced odir fs inst ∧ batchOK forced odir (stepFS odir fs inst) rest

/-- Flat per-instance preconditions for a write batch into output
directory `odir` on filesystem `fs`: no series directory path is an
existing file, no target path is an existing directory, no target path
coincides with a series directory path, and the target paths are
pairwise distinct. -/
def goodPaths (fs : FS) (odir : String) (instances : List Dataset) : Prop :=
  (∀ i ∈ instances, isFileAt fs (seriesDir odir i) = false) ∧
  (∀ i ∈ instances, isDirAt fs (instPath odir i) = false) ∧
  (∀ i ∈ instances, ∀ i' ∈ instances, instPath odir i ≠ seriesDir odir i') ∧
  (instances.map (instPath odir)).Pairwise (· ≠ ·)

/-- Every instance carries a sortable `SOPInstanceUID` (the sort key of
the cell is defined), so the table sort performed by the writer cannot
raise. -/
def sortableUIDs (instances : List Dataset) : Prop :=
  ∀ d ∈ instances, ∃ k, cell_key (d.get "SOPInstanceUID") = .ok k

/-! ### Concrete data used to instantiate the theorems -/

def exInstA : Dataset :=
  ⟨[("StudyInstanceUID", .str "1.2"), ("SeriesInstanceUID", .str "1.2.3"),
    ("SOPInstanceUID", .str "1.2.3.4"), ("PatientID", .str "P1"),
    ("SeriesDate", .str "20200101"), ("Modality", .str "CT")]⟩

def exInstB : Dataset :=
  ⟨[("StudyInstanceUID", .str "1.2"), ("SeriesInstanceUID", .str "1.2.3"),
    ("SOPInstanceUID", .str "1.2.3.10"), ("PatientID", .str "P1"),
    ("SeriesDate", .str "20200101"), ("Modality", .str "CT")]⟩

def exStudyRec1 : JsonRecord :=
  ⟨[("StudyInstanceUID", .str "1.10"), ("PatientID", .str "A")], []⟩

def exStudyRec2 : JsonRecord :=
  ⟨[("StudyInstanceUID", .str "1.2"), ("PatientID", .str "B")], []⟩

def exSeriesRec : JsonRecord :=
  ⟨[("StudyInstanceUID", .str "1.2"), ("SeriesInstanceUID", .str "7.1")], []⟩

def exInstRec : JsonRecord :=
  ⟨[("StudyInstanceUID", .str "1.2"), ("SeriesInstanceUID", .str "9.1"),
    ("SOPInstanceUID", .str "5.1")], [("PixelData", "http://bulk/1")]⟩

/-- A backend with two studies (in unsorted wire order), one series per
study and one instance per series. -/
def exEnv : Env :=
  { searchForStudies := fun _ _ _ _ => [exStudyRec1, exStudyRec2],
    searchForSeries := fun _ _ _ _ _ => [exSeriesRec],
    retrieveStudyMetadata := fun _ => [exInstRec],
    retrieveStudy := fun _ => [],
    retrieveSeriesMetadata := fun _ _ => [exInstRec],
    retrieveSeries := fun _ _ => [] }

/-- A backend that matches nothing. -/
def exEnvEmpty : Env :=
  { searchForStudies := fun _ _ _ _ => [],
    searchForSeries := fun _ _ _ _ _ => [],
    retrieveStudyMetadata := fun _ => [],
    retrieveStudy := fun _ => [],
    retrieveSeriesMetadata := fun _ _ => [],
    retrieveSeries := fun _ _ => [] }

/-- A filesystem on which the output directory already exists. -/
def exFS0 : FS := [("out", Node.dir)]

/-- A filesystem on which the target file of `exInstA` already exists. -/
def exFS1 : FS := [("out/1.2.3/1.2.3.4.dcm", Node.dicomFile exInstA)]

/-! ### Properties of the tuple comparator -/

theorem tupleLtB_iff_lex (a b : List Int) :
    tupleLtB a b = true ↔ List.Lex (· < ·) a b := by
  induction a generalizing b with
  | nil =>
    cases b with
    | nil => simp [tupleLtB]
    | cons y ys => simp [tupleLtB]; exact List.Lex.nil
  | cons x xs ih =>
    cases b with
    | nil => simp [tupleLtB]
    | cons y ys =>
      simp only [tupleLtB, Bool.or_eq_true, Bool.and_eq_true, decide_eq_true_eq,
        beq_iff_eq]
      constructor
      · rintro (h | ⟨rfl, h⟩)
        · exact List.Lex.rel h
        · exact List.Lex.cons ((ih ys).mp h)
      · intro h
        cases h with
        | cons h => exact Or.inr ⟨rfl, (ih ys).mpr h⟩
        | rel h => exact Or.inl h

theorem tupleLtB_irrefl (a : List Int) : tupleLtB a a = false := by
  induction a with
  | nil => rfl
  | cons x xs ih => simp [tupleLtB, ih]

theorem tupleLtB_asymm {a b : List Int} (h : tupleLtB a b = true) :
    tupleLtB b a = false := by
  induction a generalizing b with
  | nil => cases b <;> simp [tupleLtB]
  | cons x xs ih =>
    cases b with
    | nil => simp [tupleLtB] at h
    | cons y ys =>
      simp only [tupleLtB, Bool.or_eq_true, Bool.and_eq_true, decide_eq_true_eq,
        beq_iff_eq] at h ⊢
      simp only [Bool.or_eq_false_iff, Bool.and_eq_false_iff, decide_eq_false_iff_not,
        beq_eq_false_iff_ne, ne_eq]
      rcases h with h | ⟨rfl, h⟩
      · exact ⟨by omega, Or.inl (by omega)⟩
      · exact ⟨by omega, Or.inr (ih h)⟩

theorem tupleLtB_trans {a b c : List Int} (hab : tupleLtB a b = true)
    (hbc : tupleLtB b c = true) : tupleLtB a c = true := by
  induction a generalizing b c with
  | nil =>
    cases c with
    | nil =>
      cases b with
      | nil => exact hab
      | cons y ys => simp [tupleLtB] at hbc
    | cons z zs => simp [tupleLtB]
  | cons x xs ih =>
    cases b with
    | nil => simp [tupleLtB] at hab
    | cons y ys =>
      cases c with
      | nil => simp [tupleLtB] at hbc
      | cons z zs =>
        simp only [tupleLtB, Bool.or_eq_true, Bool.and_eq_true, decide_eq_true_eq,
          beq_iff_eq] at hab hbc ⊢
        rcases hab with h1 | ⟨rfl, h1⟩
        · rcases hbc with h2 | ⟨rfl, h2⟩
          · exact Or.inl (by omega)
          · exact Or.inl h1
        · rcases hbc with h2 | ⟨rfl, h2⟩
          · exact Or.inl h2
          · exact Or.inr ⟨rfl, ih h1 h2⟩

theorem tupleLtB_connex {a b : List Int} (h1 : tupleLtB a b = false)
    (h2 : tupleLtB b a = false) : a = b := by
  induction a generalizing b with
  | nil =>
    cases b with
    | nil => rfl
    | cons y ys => simp [tupleLtB] at h1
  | cons x xs ih =>
    cases b with
    | nil => simp [tupleLtB] at h2
    | cons y ys =>
      simp only [tupleLtB, Bool.or_eq_false_iff, Bool.and_eq_false_iff,
        decide_eq_false_iff_not, beq_eq_false_iff_ne, ne_eq] at h1 h2
      have hxy : x = y := by omega
      subst hxy
      rcases h1.2 with h | h
      · exact absurd rfl h
      · rcases h2.2 with h' | h'
        · exact absurd rfl h'
        · exact congrArg (x :: ·) (ih h h')

theorem tupleLeB_total (a b : List Int) :
    tupleLeB a b = true ∨ tupleLeB b a = true := by
  by_cases h : tupleLtB b a = true
  · exact Or.inr (by simp [tupleLeB, tupleLtB_asymm h])
  · exact Or.inl (by simp [tupleLeB]; exact Bool.eq_false_iff.mpr h)

theorem tupleLeB_trans {a b c : List Int} (hab : tupleLeB a b = true)
    (hbc : tupleLeB b c = true) : tupleLeB a c = true := by
  simp only [tupleLeB, Bool.not_eq_true'] at hab hbc ⊢
  by_cases hca : tupleLtB c a = true
  · by_cases hab' : tupleLtB a b = true
    · have hcb : tupleLtB c b = true := tupleLtB_trans hca hab'
      rw [hcb] at hbc; cases hbc
    · have heq : a = b := tupleLtB_connex (Bool.eq_false_iff.mpr hab') hab
      subst heq
      rw [hca] at hbc; cases hbc
  · exact Bool.eq_false_iff.mpr hca

/-! ### Sortedness of the frames produced by `sort_frame_by_uid` -/

theorem except_map_ok {α β : Type} {f : α → β} {x : Except String α} {y : β}
    (h : x.map f = .ok y) : ∃ a, x = .ok a ∧ y = f a := by
  cases x with
  | ok a => exact ⟨a, rfl, by simpa [Except.map] using h.symm⟩
  | error e => simp [Except.map] at h

theorem exceptMapM_ok_mem {α β : Type} {f : α → Except String β} :
    ∀ {l : List α} {ys : List β}, exceptMapM f l = .ok ys →
      ∀ y ∈ ys, ∃ x ∈ l, f x = .ok y := by
  intro l
  induction l with
  | nil =>
    intro ys h y hy
    simp only [exceptMapM, Except.ok.injEq] at h
    subst h; cases hy
  | cons x xs ih =>
    intro ys h y hy
    simp only [exceptMapM] at h
    cases hfx : f x with
    | error e => rw [hfx] at h; cases h
    | ok b =>
      rw [hfx] at h
      cases hrest : exceptMapM f xs with
      | error e => rw [hrest] at h; cases h
      | ok bs =>
        rw [hrest] at h
        cases h
        cases hy with
        | head => exact ⟨x, List.mem_cons_self x xs, hfx⟩
        | tail _ hy' =>
          obtain ⟨x', hx', hfx'⟩ := ih hrest y hy'
          exact ⟨x', List.mem_cons_of_mem _ hx', hfx'⟩

theorem exceptMapM_ok_of_forall {α β : Type} {f : α → Except String β} {g : α → β} :
    ∀ {l : List α}, (∀ x ∈ l, f x = .ok (g x)) → exceptMapM f l = .ok (l.map g) := by
  intro l
  induction l with
  | nil => intro _; rfl
  | cons x xs ih =>
    intro h
    simp only [exceptMapM, h x (List.mem_cons_self x xs),
      ih (fun x' hx' => h x' (List.mem_cons_of_mem _ hx')), List.map_cons]

theorem exceptMapM_ok_of_forall_exists {α β : Type} {f : α → Except String β} :
    ∀ {l : List α}, (∀ x ∈ l, ∃ y, f x = .ok y) → ∃ ys, exceptMapM f l = .ok ys := by
  intro l
  induction l with
  | nil => intro _; exact ⟨[], rfl⟩
  | cons x xs ih =>
    intro h
    obtain ⟨y, hy⟩ := h x (List.mem_cons_self x xs)
    obtain ⟨ys, hys⟩ := ih (fun x' hx' => h x' (List.mem_cons_of_mem _ hx'))
    exact ⟨y :: ys, by simp only [exceptMapM, hy, hys]⟩

theorem exceptMapM_ok_length {α β : Type} {f : α → Except String β} :
    ∀ {l : List α} {ys : List β}, exceptMapM f l = .ok ys → ys.length = l.length := by
  intro l
  induction l with
  | nil =>
    intro ys h
    simp only [exceptMapM, Except.ok.injEq] at h
    subst h; rfl
  | cons x xs ih =>
    intro ys h
    simp only [exceptMapM] at h
    cases hfx : f x with
    | error e => rw [hfx] at h; cases h
    | ok b =>
      rw [hfx] at h
      cases hrest : exceptMapM f xs with
      | error e => rw [hrest] at h; cases h
      | ok bs =>
        rw [hrest] at h
        cases h
        simp [ih hrest]

/-- The relation `rowKeyLe` is total and transitive on keyed rows. -/
theorem rowKeyLe_isTotal : IsTotal (List Int × List (Option DValue)) rowKeyLe :=
  ⟨fun p q => tupleLeB_total p.1 q.1⟩

theorem rowKeyLe_isTrans : IsTrans (List Int × List (Option DValue)) rowKeyLe :=
  ⟨fun _ _ _ h h' => tupleLeB_trans h h'⟩

/-- Successful sorts: the shape of the result of `sort_frame_by_uid`. -/
theorem sort_frame_ok_elim {df df' : Frame} {c : String}
    (h : sort_frame_by_uid df c = .ok df') :
    ∃ j keyed, colIndex df.columns c = some j ∧
      exceptMapM (fun r => (cell_key (rowCell r j)).map (fun k => (k, r))) df.rows = .ok keyed ∧
      df'.columns = df.columns ∧
      df'.rows = (List.insertionSort rowKeyLe keyed).map (fun p => p.2) := by
  unfold sort_frame_by_uid at h
  split at h
  · cases h
  · rename_i j hj
    split at h
    · cases h
    · rename_i keyed hm
      cases h
      exact ⟨j, keyed, hj, hm, rfl, rfl⟩

/-- Any frame returned by `sort_frame_by_uid` is sorted by the UID key
on the sort column. -/
theorem sort_frame_sortedBy {df df' : Frame} {c : String}
    (h : sort_frame_by_uid df c = .ok df') : FrameSortedBy df' c := by
  obtain ⟨j, keyed, hj, hm, hcols, hrows⟩ := sort_frame_ok_elim h
  refine ⟨j, by rw [hcols]; exact hj, ?_⟩
  have hkey : ∀ p ∈ keyed, cell_key (rowCell p.2 j) = .ok p.1 := by
    intro p hp
    obtain ⟨r, _, hfr⟩ := exceptMapM_ok_mem hm p hp
    obtain ⟨k, hk, hpk⟩ := except_map_ok hfr
    rw [hpk, hk]
  have hmem : ∀ p ∈ List.insertionSort rowKeyLe keyed,
      cell_key (rowCell p.2 j) = .ok p.1 := by
    intro p hp
    exact hkey p ((List.perm_insertionSort rowKeyLe keyed).mem_iff.mp hp)
  have hsorted : (List.insertionSort rowKeyLe keyed).Pairwise rowKeyLe := by
    haveI := rowKeyLe_isTotal
    haveI := rowKeyLe_isTrans
    exact List.sorted_insertionSort rowKeyLe keyed
  rw [hrows]
  rw [List.pairwise_map]
  refine hsorted.imp_of_mem ?_
  intro p q hp hq hle k k' hk hk'
  rw [hmem p hp] at hk
  rw [hmem q hq] at hk'
  cases hk; cases hk'
  exact hle

/-- Members of the rows of a successful sort are rows of the input. -/
theorem sort_frame_rows_mem {df df' : Frame} {c : String}
    (h : sort_frame_by_uid df c = .ok df') : ∀ r ∈ df'.rows, r ∈ df.rows := by
  obtain ⟨j, keyed, hj, hm, hcols, hrows⟩ := sort_frame_ok_elim h
  intro r hr
  rw [hrows] at hr
  obtain ⟨p, hp, hpr⟩ := List.mem_map.mp hr
  have hp' := (List.perm_insertionSort rowKeyLe keyed).mem_iff.mp hp
  obtain ⟨r₀, hr₀, hfr⟩ := exceptMapM_ok_mem hm p hp'
  obtain ⟨k, _, hpk⟩ := except_map_ok hfr
  rw [hpk] at hpr
  simpa [← hpr] using hr₀

/-- A successful sort exists as soon as the sort column exists and the
key of every cell in it is defined. -/
theorem sort_frame_ok_intro {df : Frame} {c : String} {j : Nat}
    (hj : colIndex df.columns c = some j)
    (hkeys : ∀ r ∈ df.rows, ∃ k, cell_key (rowCell r j) = .ok k) :
    ∃ df', sort_frame_by_uid df c = .ok df' ∧ df'.columns = df.columns := by
  have : ∀ r ∈ df.rows, ∃ p, (cell_key (rowCell r j)).map (fun k => (k, r)) = .ok p := by
    intro r hr
    obtain ⟨k, hk⟩ := hkeys r hr
    exact ⟨(k, r), by rw [hk]; rfl⟩
  obtain ⟨keyed, hkeyed⟩ := exceptMapM_ok_of_forall_exists this
  refine ⟨⟨df.columns, (List.insertionSort rowKeyLe keyed).map (fun p => p.2)⟩, ?_, rfl⟩
  simp only [sort_frame_by_uid, hj, hkeyed]

/-! ### Filesystem lemmas and the behaviour of the write loop -/

theorem fsLookup_fsInsert (fs : FS) (p q : String) (n : Node) :
    fsLookup (fsInsert fs p n) q = if q = p then some n else fsLookup fs q := by
  by_cases h : q = p
  · subst h; simp [fsLookup, fsInsert]
  · simp [fsLookup, fsInsert, List.find?_cons_of_neg, Ne.symm h, h]

theorem isDirAt_lookup {fs : FS} {p : String} (h : isDirAt fs p = true) :
    fsLookup fs p = some .dir := by
  cases hl : fsLookup fs p with
  | none => simp [isDirAt, hl] at h
  | some n => cases n <;> simp [isDirAt, hl] at h ⊢

theorem fsLookup_dirEnsured (fs : FS) (p q : String) :
    fsLookup (dirEnsured fs p) q = if q = p then some .dir else fsLookup fs q := by
  unfold dirEnsured
  by_cases hd : isDirAt fs p
  · rw [if_pos hd]
    by_cases h : q = p
    · subst h; rw [if_pos rfl]; exact isDirAt_lookup hd
    · rw [if_neg h]
  · rw [if_neg hd, fsLookup_fsInsert]

theorem isFileAt_congr {fs fs' : FS} {q : String}
    (h : fsLookup fs q = fsLookup fs' q) : isFileAt fs q = isFileAt fs' q := by
  unfold isFileAt; rw [h]

theorem isDirAt_congr {fs fs' : FS} {q : String}
    (h : fsLookup fs q = fsLookup fs' q) : isDirAt fs q = isDirAt fs' q := by
  unfold isDirAt; rw [h]

theorem ensure_dir_ok {fs : FS} {p : String} (forced : Bool)
    (h : isFileAt fs p = false) :
    ensure_dir fs p forced = (dirEnsured fs p, .ok true) := by
  unfold ensure_dir dirEnsured
  by_cases hd : isDirAt fs p = true
  · simp [hd]
  · have hd' : isDirAt fs p = false := Bool.eq_false_iff.mpr hd
    rw [if_neg (by simp [hd']), if_neg (by simp [hd'])]
    cases hl : fsLookup fs p with
    | none => rfl
    | some n =>
      cases n with
      | dir => simp [isDirAt, hl] at hd'
      | dicomFile d => simp [isFileAt, hl] at h
      | csvFile f => simp [isFileAt, hl] at h

theorem ensure_dir_err {fs : FS} {p : String} (forced : Bool)
    (h : isFileAt fs p = true) :
    ensure_dir fs p forced = (fs, .error ("FileExistsError: " ++ p)) := by
  unfold ensure_dir
  cases hl : fsLookup fs p with
  | none => simp [isFileAt, hl] at h
  | some n =>
    cases n with
    | dir => simp [isFileAt, hl] at h
    | dicomFile d => rw [if_neg (by simp [isDirAt, hl])]
    | csvFile f => rw [if_neg (by simp [isDirAt, hl])]

theorem fsLookup_stepFS (odir : String) (fs : FS) (i : Dataset) (q : String) :
    fsLookup (stepFS odir fs i) q =
      if q = instPath odir i then some (.dicomFile i)
      else if q = seriesDir odir i then some .dir
      else fsLookup fs q := by
  unfold stepFS
  rw [fsLookup_fsInsert, fsLookup_dirEnsured]

theorem writeLoop_ok {forced : Bool} {odir : String} :
    ∀ {l : List Dataset} {fs : FS} {sizes : List (String × Nat)},
      batchOK forced odir fs l →
      writeLoop forced odir l fs sizes =
        (fsAfter odir fs l, .ok (sizesAfter sizes l)) := by
  intro l
  induction l with
  | nil => intro fs sizes _; rfl
  | cons inst rest ih =>
    intro fs sizes hb
    obtain ⟨⟨hdir, hfile, hnd⟩, hrest⟩ := hb
    unfold writeLoop
    rw [ensure_dir_ok forced hdir]
    have hcond : (!isFileAt (dirEnsured fs (seriesDir odir inst)) (instPath odir inst)
        || forced) = true := by
      rcases hfile with hf | hf <;> simp [hf]
    simp only [hcond, if_true, hnd, Bool.false_eq_true, if_false]
    exact ih hrest

theorem writeLoop_collision {odir : String} :
    ∀ {pre : List Dataset} {fs : FS} {sizes : List (String × Nat)}
      {d : Dataset} {post : List Dataset},
      batchOK false odir fs pre →
      isFileAt (fsAfter odir fs pre) (seriesDir odir d) = false →
      isFileAt (dirEnsured (fsAfter odir fs pre) (seriesDir odir d))
        (instPath odir d) = true →
      writeLoop false odir (pre ++ d :: post) fs sizes =
        (dirEnsured (fsAfter odir fs pre) (seriesDir odir d),
         .error ("FileExistsError: File already exists: " ++ instPath odir d)) := by
  intro pre
  induction pre with
  | nil =>
    intro fs sizes d post _ hdir hcol
    have hdir' : isFileAt fs (seriesDir odir d) = false := hdir
    have hcol' : isFileAt (dirEnsured fs (seriesDir odir d)) (instPath odir d)
      = true := hcol
    rw [List.nil_append]
    unfold writeLoop
    rw [ensure_dir_ok false hdir']
    simp only [hcol', Bool.not_true, Bool.or_false, Bool.false_eq_true, if_false]
    rfl
  | cons i pre ih =>
    intro fs sizes d post hb hdir hcol
    obtain ⟨⟨hdir', hfile', hnd'⟩, hrest⟩ := hb
    rw [List.cons_append]
    unfold writeLoop
    rw [ensure_dir_ok false hdir']
    have hcond : (!isFileAt (dirEnsured fs (seriesDir odir i)) (instPath odir i)
        || false) = true := by
      rcases hfile' with hf | hf
      · cases hf
      · simp [hf]
    simp only [hcond, if_true, hnd', Bool.false_eq_true, if_false]
    exact ih hrest hdir hcol

theorem fsAfter_lookup_other {odir : String} :
    ∀ {l : List Dataset} {fs : FS} {q : String},
      (∀ i ∈ l, q ≠ seriesDir odir i ∧ q ≠ instPath odir i) →
      fsLookup (fsAfter odir fs l) q = fsLookup fs q := by
  intro l
  induction l with
  | nil => intro fs q _; rfl
  | cons i rest ih =>
    intro fs q h
    have hi := h i (List.mem_cons_self i rest)
    have step : fsLookup (stepFS odir fs i) q = fsLookup fs q := by
      rw [fsLookup_stepFS, if_neg hi.2, if_neg hi.1]
    calc fsLookup (fsAfter odir fs (i :: rest)) q
        = fsLookup (fsAfter odir (stepFS odir fs i) rest) q := rfl
      _ = fsLookup (stepFS odir fs i) q :=
          ih (fun i' hi' => h i' (List.mem_cons_of_mem _ hi'))
      _ = fsLookup fs q := step

theorem fsAfter_lookup_file {odir : String} :
    ∀ {l : List Dataset} {fs : FS} {d : Dataset}, d ∈ l →
      (∀ i ∈ l, ∀ i' ∈ l, instPath odir i ≠ seriesDir odir i') →
      (l.map (instPath odir)).Pairwise (· ≠ ·) →
      fsLookup (fsAfter odir fs l) (instPath odir d) = some (.dicomFile d) := by
  intro l
  induction l with
  | nil => intro fs d hd; cases hd
  | cons i rest ih =>
    intro fs d hd hsep hdist
    rcases List.mem_cons.mp hd with rfl | hd'
    · have hother : ∀ i' ∈ rest,
          instPath odir d ≠ seriesDir odir i' ∧ instPath odir d ≠ instPath odir i' := by
        intro i' hi'
        refine ⟨hsep d (List.mem_cons_self d rest) i' (List.mem_cons_of_mem _ hi'), ?_⟩
        have := (List.pairwise_map.mp hdist)
        exact (List.pairwise_cons.mp this).1 i' hi'
      calc fsLookup (fsAfter odir fs (d :: rest)) (instPath odir d)
          = fsLookup (fsAfter odir (stepFS odir fs d) rest) (instPath odir d) := rfl
        _ = fsLookup (stepFS odir fs d) (instPath odir d) := fsAfter_lookup_other hother
        _ = some (.dicomFile d) := by rw [fsLookup_stepFS, if_pos rfl]
    · refine ih hd' ?_ ?_
      · intro a ha b hb
        exact hsep a (List.mem_cons_of_mem _ ha) b (List.mem_cons_of_mem _ hb)
      · exact (List.pairwise_cons.mp hdist).2

theorem fsAfter_preserves_dir {odir : String} :
    ∀ {l : List Dataset} {fs : FS} {q : String},
      fsLookup fs q = some .dir → (∀ i ∈ l, q ≠ instPath odir i) →
      fsLookup (fsAfter odir fs l) q = some .dir := by
  intro l
  induction l with
  | nil => intro fs q h _; exact h
  | cons i rest ih =>
    intro fs q h hni
    have step : fsLookup (stepFS odir fs i) q = some .dir := by
      rw [fsLookup_stepFS, if_neg (hni i (List.mem_cons_self i rest))]
      by_cases hq : q = seriesDir odir i
      · rw [if_pos hq]
      · rw [if_neg hq]; exact h
    exact ih step (fun i' hi' => hni i' (List.mem_cons_of_mem _ hi'))

theorem fsAfter_lookup_dir {odir : String} :
    ∀ {l : List Dataset} {fs : FS} {d : Dataset}, d ∈ l →
      (∀ i ∈ l, ∀ i' ∈ l, instPath odir i ≠ seriesDir odir i') →
      fsLookup (fsAfter odir fs l) (seriesDir odir d) = some .dir := by
  intro l
  induction l with
  | nil => intro fs d hd; cases hd
  | cons i rest ih =>
    intro fs d hd hsep
    rcases List.mem_cons.mp hd with rfl | hd'
    · have step : fsLookup (stepFS odir fs d) (seriesDir odir d) = some .dir := by
        rw [fsLookup_stepFS,
          if_neg (Ne.symm (hsep d (List.mem_cons_self d rest) d (List.mem_cons_self d rest))),
          if_pos rfl]
      exact @fsAfter_preserves_dir odir rest (stepFS odir fs d) (seriesDir odir d)
        step
        (fun i' hi' => Ne.symm
          (hsep i' (List.mem_cons_of_mem _ hi') d (List.mem_cons_self d rest)))
    · exact ih hd' (fun a ha b hb =>
        hsep a (List.mem_cons_of_mem _ ha) b (List.mem_cons_of_mem _ hb))

theorem batchOK_of_flat {forced : Bool} {odir : String} :
    ∀ {l : List Dataset} {fs : FS},
      (∀ i ∈ l, isFileAt fs (seriesDir odir i) = false) →
      (∀ i ∈ l, isDirAt fs (instPath odir i) = false) →
      (∀ i ∈ l, ∀ i' ∈ l, instPath odir i ≠ seriesDir odir i') →
      (l.map (instPath odir)).Pairwise (· ≠ ·) →
      (forced = true ∨ ∀ i ∈ l, isFileAt fs (instPath odir i) = false) →
      batchOK forced odir fs l := by
  intro l
  induction l with
  | nil => intro fs _ _ _ _ _; trivial
  | cons i rest ih =>
    intro fs hdir hnd hsep hdist hfresh
    have hmem : i ∈ i :: rest := List.mem_cons_self i rest
    have hii : instPath odir i ≠ seriesDir odir i := hsep i hmem i hmem
    have hlook : fsLookup (dirEnsured fs (seriesDir odir i)) (instPath odir i)
        = fsLookup fs (instPath odir i) := by
      rw [fsLookup_dirEnsured, if_neg hii]
    refine ⟨⟨hdir i hmem, ?_, ?_⟩, ?_⟩
    · rcases hfresh with hf | hf
      · exact Or.inl hf
      · exact Or.inr (by rw [isFileAt_congr hlook]; exact hf i hmem)
    · rw [isDirAt_congr hlook]; exact hnd i hmem
    · -- re-establish the flat conditions after one step
      have hstep : ∀ q : String, q ≠ instPath odir i → q ≠ seriesDir odir i →
          fsLookup (stepFS odir fs i) q = fsLookup fs q := by
        intro q h1 h2
        rw [fsLookup_stepFS, if_neg h1, if_neg h2]
      refine ih ?_ ?_ ?_ ?_ ?_
      · intro r hr
        by_cases hq : seriesDir odir r = seriesDir odir i
        · have : fsLookup (stepFS odir fs i) (seriesDir odir r) = some .dir := by
            rw [fsLookup_stepFS,
              if_neg (Ne.symm (hsep i hmem r (List.mem_cons_of_mem _ hr))), hq,
              if_pos rfl]
          simp [isFileAt, this]
        · rw [isFileAt_congr (hstep _
            (Ne.symm (hsep i hmem r (List.mem_cons_of_mem _ hr))) hq)]
          exact hdir r (List.mem_cons_of_mem _ hr)
      · intro r hr
        have h1 : instPath odir r ≠ instPath odir i :=
          Ne.symm ((List.pairwise_cons.mp (List.pairwise_map.mp hdist)).1 r hr)
        have h2 : instPath odir r ≠ seriesDir odir i :=
          hsep r (List.mem_cons_of_mem _ hr) i hmem
        rw [isDirAt_congr (hstep _ h1 h2)]
        exact hnd r (List.mem_cons_of_mem _ hr)
      · intro a ha b hb
        exact hsep a (List.mem_cons_of_mem _ ha) b (List.mem_cons_of_mem _ hb)
      · exact (List.pairwise_cons.mp hdist).2
      · rcases hfresh with hf | hf
        · exact Or.inl hf
        · refine Or.inr ?_
          intro r hr
          have h1 : instPath odir r ≠ instPath odir i :=
            Ne.symm ((List.pairwise_cons.mp (List.pairwise_map.mp hdist)).1 r hr)
          have h2 : instPath odir r ≠ seriesDir odir i :=
            hsep r (List.mem_cons_of_mem _ hr) i hmem
          rw [isFileAt_congr (hstep _ h1 h2)]
          exact hf r (List.mem_cons_of_mem _ hr)

/-! ### Frame access, merge and size-dictionary lemmas -/

theorem colIndex_lt_length :
    ∀ {cols : List String} {c : String} {j : Nat},
      colIndex cols c = some j → j < cols.length := by
  intro cols
  induction cols with
  | nil => intro c j h; cases h
  | cons c0 cs ih =>
    intro c j h
    unfold colIndex at h
    by_cases hc : c0 = c
    · rw [if_pos hc] at h
      cases h
      simp
    · rw [if_neg hc] at h
      cases hrec : colIndex cs c with
      | none => rw [hrec] at h; cases h
      | some j' =>
        rw [hrec] at h
        cases h
        have := ih hrec
        simp only [List.length_cons]
        omega

theorem colIndex_append_left :
    ∀ {cols : List String} {c : String} {j : Nat} (ext : List String),
      colIndex cols c = some j → colIndex (cols ++ ext) c = some j := by
  intro cols
  induction cols with
  | nil => intro c j ext h; cases h
  | cons c0 cs ih =>
    intro c j ext h
    rw [List.cons_append]
    unfold colIndex at h ⊢
    by_cases hc : c0 = c
    · rw [if_pos hc] at h ⊢; exact h
    · rw [if_neg hc] at h ⊢
      cases hrec : colIndex cs c with
      | none => rw [hrec] at h; cases h
      | some j' =>
        rw [hrec] at h
        rw [ih ext hrec]
        exact h

theorem rowCell_append {r : List (Option DValue)} {v : Option DValue} {j : Nat}
    (h : j < r.length) : rowCell (r ++ [v]) j = rowCell r j := by
  unfold rowCell
  rw [List.getElem?_append_left h]

theorem cell_key_ok_inv {v : Option DValue} {k : List Int}
    (h : cell_key v = .ok k) : ∃ s, v = some (.str s) ∧ uid_key s = .ok k := by
  cases v with
  | none => cases h
  | some dv =>
    cases dv with
    | str s => exact ⟨s, rfl, h⟩
    | num n => cases h
    | seq vs => cases h
    | bytes s => cases h
    | uri s => cases h

theorem mergeRow_some {cols : List String} {sizes : List (String × Nat)}
    {r b : List (Option DValue)} (h : mergeRow cols sizes r = some b) :
    ∃ v, b = r ++ [v] := by
  unfold mergeRow at h
  split at h
  · split at h
    · exact ⟨_, (Option.some.inj h).symm⟩
    · cases h
  · cases h

theorem mergeRow_eq {cols : List String} {sizes : List (String × Nat)}
    {r : List (Option DValue)} {uid : String} {n : Nat}
    (h1 : cellAt cols r "SOPInstanceUID" = some (.str uid))
    (h2 : dictLookup sizes uid = some n) :
    mergeRow cols sizes r = some (r ++ [some (.num (n : Int))]) := by
  simp only [mergeRow, h1, h2]

theorem filterMap_concat_dropLast {α : Type}
    {f : List α → Option (List α)} :
    ∀ {l : List (List α)}, (∀ r ∈ l, ∃ v, f r = some (r ++ [v])) →
      (l.filterMap f).map List.dropLast = l := by
  intro l
  induction l with
  | nil => intro _; rfl
  | cons r rest ih =>
    intro h
    obtain ⟨v, hv⟩ := h r (List.mem_cons_self r rest)
    rw [List.filterMap_cons_some hv, List.map_cons, List.dropLast_concat,
      ih (fun r' hr' => h r' (List.mem_cons_of_mem _ hr'))]

theorem mergeFileSizes_sortedBy {df : Frame} {sizes : List (String × Nat)}
    (hs : FrameSortedBy df "SOPInstanceUID")
    (hlen : ∀ r ∈ df.rows, df.columns.length ≤ r.length) :
    FrameSortedBy (mergeFileSizes df sizes) "SOPInstanceUID" := by
  obtain ⟨j, hj, hp⟩ := hs
  have hjlt := colIndex_lt_length hj
  refine ⟨j, colIndex_append_left _ hj, ?_⟩
  show (df.rows.filterMap (mergeRow df.columns sizes)).Pairwise _
  rw [List.pairwise_filterMap]
  refine hp.imp_of_mem ?_
  intro r r' hr hr' hle b hb b' hb'
  obtain ⟨v, rfl⟩ := mergeRow_some (Option.mem_def.mp hb)
  obtain ⟨v', rfl⟩ := mergeRow_some (Option.mem_def.mp hb')
  intro k k' hk hk'
  rw [rowCell_append (Nat.lt_of_lt_of_le hjlt (hlen r hr))] at hk
  rw [rowCell_append (Nat.lt_of_lt_of_le hjlt (hlen r' hr'))] at hk'
  exact hle k k' hk hk'

theorem dictInsert_new {sz : List (String × Nat)} {k : String} {v : Nat}
    (h : ∀ p ∈ sz, p.1 ≠ k) : dictInsert sz k v = sz ++ [(k, v)] := by
  unfold dictInsert
  rw [if_neg]
  intro hc
  obtain ⟨p, hp, hbeq⟩ := List.any_eq_true.mp hc
  exact h p hp (beq_iff_eq.mp hbeq)

theorem sizesAfter_eq :
    ∀ {l : List Dataset} {sizes : List (String × Nat)},
      (∀ i ∈ l, ∀ p ∈ sizes, p.1 ≠ i.attrStr "SOPInstanceUID") →
      (l.map (fun i => i.attrStr "SOPInstanceUID")).Pairwise (· ≠ ·) →
      sizesAfter sizes l =
        sizes ++ l.map (fun i => (i.attrStr "SOPInstanceUID", i.encSize)) := by
  intro l
  induction l with
  | nil => intro sizes _ _; simp [sizesAfter]
  | cons i rest ih =>
    intro sizes hnew hdist
    have hstep : dictInsert sizes (i.attrStr "SOPInstanceUID") i.encSize
        = sizes ++ [(i.attrStr "SOPInstanceUID", i.encSize)] :=
      dictInsert_new (fun p hp => hnew i (List.mem_cons_self i rest) p hp)
    have hrec := @ih (sizes ++ [(i.attrStr "SOPInstanceUID", i.encSize)])
      (by
        intro r hr p hp
        rcases List.mem_append.mp hp with hp' | hp'
        · exact hnew r (List.mem_cons_of_mem _ hr) p hp'
        · have : p = (i.attrStr "SOPInstanceUID", i.encSize) := by simpa using hp'
          subst this
          exact (List.pairwise_cons.mp (List.pairwise_map.mp hdist)).1 r hr)
      ((List.pairwise_cons.mp hdist).2)
    calc sizesAfter sizes (i :: rest)
        = sizesAfter (dictInsert sizes (i.attrStr "SOPInstanceUID") i.encSize) rest := rfl
      _ = sizesAfter (sizes ++ [(i.attrStr "SOPInstanceUID", i.encSize)]) rest := by
          rw [hstep]
      _ = sizes ++ (i :: rest).map (fun i => (i.attrStr "SOPInstanceUID", i.encSize)) := by
          rw [hrec]; simp

theorem dictLookup_map_of_mem :
    ∀ {l : List Dataset} {d : Dataset}, d ∈ l →
      (l.map (fun i => i.attrStr "SOPInstanceUID")).Pairwise (· ≠ ·) →
      dictLookup (l.map (fun i => (i.attrStr "SOPInstanceUID", i.encSize)))
        (d.attrStr "SOPInstanceUID") = some d.encSize := by
  intro l
  induction l with
  | nil => intro d hd; cases hd
  | cons i rest ih =>
    intro d hd hdist
    rcases List.mem_cons.mp hd with rfl | hd'
    · simp [dictLookup]
    · have hne : i.attrStr "SOPInstanceUID" ≠ d.attrStr "SOPInstanceUID" :=
        (List.pairwise_cons.mp (List.pairwise_map.mp hdist)).1 d hd'
      have : dictLookup ((i :: rest).map (fun i => (i.attrStr "SOPInstanceUID", i.encSize)))
          (d.attrStr "SOPInstanceUID")
          = dictLookup (rest.map (fun i => (i.attrStr "SOPInstanceUID", i.encSize)))
            (d.attrStr "SOPInstanceUID") := by
        simp only [List.map_cons, dictLookup, List.find?_cons_of_neg, beq_iff_eq, hne,
          not_false_iff]
      rw [this]
      exact ih hd' (List.pairwise_cons.mp hdist).2

/-- `isFileAt` is preserved as `false` through the write fold at any
path that is not one of the written target files. -/
theorem fsAfter_isFileAt_false {odir : String} :
    ∀ {l : List Dataset} {fs : FS} {q : String},
      isFileAt fs q = false → (∀ i ∈ l, q ≠ instPath odir i) →
      isFileAt (fsAfter odir fs l) q = false := by
  intro l
  induction l with
  | nil => intro fs q h _; exact h
  | cons i rest ih =>
    intro fs q h hni
    have step : isFileAt (stepFS odir fs i) q = false := by
      have hl := fsLookup_stepFS odir fs i q
      rw [if_neg (hni i (List.mem_cons_self i rest))] at hl
      by_cases hq : q = seriesDir odir i
      · rw [if_pos hq] at hl
        simp [isFileAt, hl]
      · rw [if_neg hq] at hl
        rw [isFileAt_congr hl]
        exact h
    exact ih step (fun i' hi' => hni i' (List.mem_cons_of_mem _ hi'))

theorem ne_of_length_ne {a b : String} (h : a.length ≠ b.length) : a ≠ b :=
  fun he => h (congrArg String.length he)

theorem seriesDir_ne_odir (odir : String) (i : Dataset) :
    seriesDir odir i ≠ odir := by
  apply ne_of_length_ne
  have h1 : ("/" : String).length = 1 := rfl
  simp only [seriesDir, String.length_append, h1]
  omega

theorem instPath_ne_odir (odir : String) (i : Dataset) :
    instPath odir i ≠ odir := by
  apply ne_of_length_ne
  have h1 : ("/" : String).length = 1 := rfl
  have h2 : (".dcm" : String).length = 4 := rfl
  simp only [instPath, seriesDir, String.length_append, h1, h2]
  omega

theorem ensure_ouput_dir_ok {fs : FS} {odir dflt : String} {forced : Bool}
    (h : isFileAt fs odir = false) :
    _ensure_ouput_dir fs (some odir) dflt forced = (dirEnsured fs odir, .ok odir) := by
  unfold _ensure_ouput_dir
  simp only [Option.getD_some]
  rw [ensure_dir_ok forced h]

/-! ### Behaviour of `_write_instances` -/

theorem colIndex_instance_sop : colIndex INSTANCE_KEYS "SOPInstanceUID" = some 2 := by
  decide

theorem rowCell_instanceRow (d : Dataset) :
    rowCell (INSTANCE_KEYS.map d.get) 2 = d.get "SOPInstanceUID" := rfl

theorem cellAt_instanceRow (d : Dataset) :
    cellAt INSTANCE_KEYS (INSTANCE_KEYS.map d.get) "SOPInstanceUID"
      = d.get "SOPInstanceUID" := by
  unfold cellAt
  rw [colIndex_instance_sop]
  rfl

theorem goodPaths_dirEnsured {fs : FS} {odir : String} {instances : List Dataset}
    (hg : goodPaths fs odir instances) :
    goodPaths (dirEnsured fs odir) odir instances := by
  obtain ⟨h1, h2, h3, h4⟩ := hg
  refine ⟨?_, ?_, h3, h4⟩
  · intro i hi
    have hl : fsLookup (dirEnsured fs odir) (seriesDir odir i)
        = fsLookup fs (seriesDir odir i) := by
      rw [fsLookup_dirEnsured, if_neg (seriesDir_ne_odir odir i)]
    rw [isFileAt_congr hl]
    exact h1 i hi
  · intro i hi
    have hl : fsLookup (dirEnsured fs odir) (instPath odir i)
        = fsLookup fs (instPath odir i) := by
      rw [fsLookup_dirEnsured, if_neg (instPath_ne_odir odir i)]
    rw [isDirAt_congr hl]
    exact h2 i hi

theorem batchOK_of_goodPaths {forced : Bool} {odir : String} {fs : FS}
    {instances : List Dataset} (hg : goodPaths fs odir instances)
    (hfresh : forced = true ∨ ∀ i ∈ instances, isFileAt fs (instPath odir i) = false) :
    batchOK forced odir fs instances :=
  batchOK_of_flat hg.1 hg.2.1 hg.2.2.1 hg.2.2.2 hfresh

/-- In dry-run mode `_write_instances` returns the sorted table and
touches nothing. -/
theorem write_instances_dry {dflt : String} {fs : FS} {instances : List Dataset}
    {out_dir : Option String} {forced : Bool} {df₀ : Frame}
    (h : sort_frame_by_uid (dicoms_to_frame instances INSTANCE_KEYS)
      "SOPInstanceUID" = .ok df₀) :
    _write_instances true dflt fs instances out_dir forced = (fs, .ok df₀) := by
  simp only [_write_instances, h, if_true]

/-- Successful non-dry run of `_write_instances`: the files are written
and the returned table is the sorted table extended by the `FileSize`
column. -/
theorem write_instances_ok {dflt : String} {fs : FS} {instances : List Dataset}
    {odir : String} {forced : Bool}
    (hsort : sortableUIDs instances)
    (hodir : isFileAt fs odir = false)
    (hgood : goodPaths fs odir instances)
    (hfresh : forced = true ∨ ∀ i ∈ instances, isFileAt fs (instPath odir i) = false)
    (hsops : (instances.map (fun i => i.attrStr "SOPInstanceUID")).Pairwise (· ≠ ·)) :
    ∃ df₀ df,
      sort_frame_by_uid (dicoms_to_frame instances INSTANCE_KEYS) "SOPInstanceUID"
        = .ok df₀ ∧
      _write_instances false dflt fs instances (some odir) forced =
        (fsAfter odir (dirEnsured fs odir) instances, .ok df) ∧
      df.columns = INSTANCE_KEYS ++ ["FileSize"] ∧
      df.rows.map List.dropLast = df₀.rows ∧
      FrameSortedBy df "SOPInstanceUID" := by
  have hrows_mem : ∀ r ∈ (dicoms_to_frame instances INSTANCE_KEYS).rows,
      ∃ d, d ∈ instances ∧ r = INSTANCE_KEYS.map d.get := by
    intro r hr
    obtain ⟨d, hd, hmap⟩ := List.mem_map.mp hr
    exact ⟨d, hd, hmap.symm⟩
  have hjcols : colIndex (dicoms_to_frame instances INSTANCE_KEYS).columns
      "SOPInstanceUID" = some 2 := colIndex_instance_sop
  have hkeys : ∀ r ∈ (dicoms_to_frame instances INSTANCE_KEYS).rows,
      ∃ k, cell_key (rowCell r 2) = .ok k := by
    intro r hr
    obtain ⟨d, hd, rfl⟩ := hrows_mem r hr
    obtain ⟨k, hk⟩ := hsort d hd
    exact ⟨k, by rw [rowCell_instanceRow]; exact hk⟩
  obtain ⟨df₀, hdf₀, hcols₀⟩ := sort_frame_ok_intro hjcols hkeys
  have hgood' := goodPaths_dirEnsured hgood
  have hfresh' : forced = true ∨
      ∀ i ∈ instances, isFileAt (dirEnsured fs odir) (instPath odir i) = false := by
    rcases hfresh with hf | hf
    · exact Or.inl hf
    · refine Or.inr (fun i hi => ?_)
      have hl : fsLookup (dirEnsured fs odir) (instPath odir i)
          = fsLookup fs (instPath odir i) := by
        rw [fsLookup_dirEnsured, if_neg (instPath_ne_odir odir i)]
      rw [isFileAt_congr hl]
      exact hf i hi
  have hbatch := batchOK_of_goodPaths hgood' hfresh'
  have hrowsmem₀ : ∀ r ∈ df₀.rows, ∃ d, d ∈ instances ∧ r = INSTANCE_KEYS.map d.get :=
    fun r hr => hrows_mem r (sort_frame_rows_mem hdf₀ r hr)
  have hall : ∀ r ∈ df₀.rows,
      ∃ v, mergeRow df₀.columns (sizesAfter [] instances) r = some (r ++ [v]) := by
    intro r hr
    obtain ⟨d, hd, rfl⟩ := hrowsmem₀ r hr
    obtain ⟨k, hk⟩ := hsort d hd
    obtain ⟨s, hs, _⟩ := cell_key_ok_inv hk
    have hcell : cellAt df₀.columns (INSTANCE_KEYS.map d.get) "SOPInstanceUID"
        = some (.str s) := by
      rw [hcols₀]
      show cellAt INSTANCE_KEYS (INSTANCE_KEYS.map d.get) "SOPInstanceUID" = _
      rw [cellAt_instanceRow]
      exact hs
    have hattr : d.attrStr "SOPInstanceUID" = s := by
      unfold Dataset.attrStr
      rw [hs]
    have hsz : dictLookup (sizesAfter [] instances) s = some d.encSize := by
      rw [sizesAfter_eq (by intro i _ p hp; cases hp) hsops, List.nil_append, ← hattr]
      exact dictLookup_map_of_mem hd hsops
    exact ⟨some (.num (d.encSize : Int)), mergeRow_eq hcell hsz⟩
  have hlen : ∀ r ∈ df₀.rows, df₀.columns.length ≤ r.length := by
    intro r hr
    obtain ⟨d, hd, rfl⟩ := hrowsmem₀ r hr
    rw [hcols₀]
    simp [dicoms_to_frame]
  refine ⟨df₀, mergeFileSizes df₀ (sizesAfter [] instances), hdf₀, ?_, ?_, ?_, ?_⟩
  · simp only [_write_instances, hdf₀, Bool.false_eq_true, if_false,
      ensure_ouput_dir_ok hodir, writeLoop_ok hbatch]
  · show df₀.columns ++ ["FileSize"] = INSTANCE_KEYS ++ ["FileSize"]
    rw [hcols₀]
    rfl
  · exact filterMap_concat_dropLast hall
  · exact mergeFileSizes_sortedBy (sort_frame_sortedBy hdf₀) hlen

/-- Aborted non-dry run: the first instance whose target file already
exists raises `FileExistsError`, and the files written for the instances
before it remain in the filesystem. -/
theorem write_instances_collision {dflt : String} {fs : FS} {odir : String}
    {pre : List Dataset} {d : Dataset} {post : List Dataset}
    (hsort : sortableUIDs (pre ++ d :: post))
    (hodir : isFileAt fs odir = false)
    (hgoodpre : goodPaths fs odir pre)
    (hfreshpre : ∀ i ∈ pre, isFileAt fs (instPath odir i) = false)
    (hsep1 : ∀ i ∈ pre, instPath odir d ≠ instPath odir i)
    (hsep2 : ∀ i ∈ pre, instPath odir d ≠ seriesDir odir i)
    (hsep3 : ∀ i ∈ pre, seriesDir odir d ≠ instPath odir i)
    (hsepdd : instPath odir d ≠ seriesDir odir d)
    (hdird : isFileAt fs (seriesDir odir d) = false)
    (hcol : isFileAt fs (instPath odir d) = true) :
    ∃ fs', _write_instances false dflt fs (pre ++ d :: post) (some odir) false =
      (fs', .error ("FileExistsError: File already exists: " ++ instPath odir d)) ∧
      ∀ p ∈ pre, fsLookup fs' (instPath odir p) = some (.dicomFile p) := by
  have hrows_mem : ∀ r ∈ (dicoms_to_frame (pre ++ d :: post) INSTANCE_KEYS).rows,
      ∃ i, i ∈ pre ++ d :: post ∧ r = INSTANCE_KEYS.map i.get := by
    intro r hr
    obtain ⟨i, hi, hmap⟩ := List.mem_map.mp hr
    exact ⟨i, hi, hmap.symm⟩
  have hkeys : ∀ r ∈ (dicoms_to_frame (pre ++ d :: post) INSTANCE_KEYS).rows,
      ∃ k, cell_key (rowCell r 2) = .ok k := by
    intro r hr
    obtain ⟨i, hi, rfl⟩ := hrows_mem r hr
    obtain ⟨k, hk⟩ := hsort i hi
    exact ⟨k, by rw [rowCell_instanceRow]; exact hk⟩
  obtain ⟨df₀, hdf₀, _⟩ := sort_frame_ok_intro colIndex_instance_sop hkeys
  have hgood' := goodPaths_dirEnsured hgoodpre
  have hfresh' : ∀ i ∈ pre, isFileAt (dirEnsured fs odir) (instPath odir i) = false := by
    intro i hi
    have hl : fsLookup (dirEnsured fs odir) (instPath odir i)
        = fsLookup fs (instPath odir i) := by
      rw [fsLookup_dirEnsured, if_neg (instPath_ne_odir odir i)]
    rw [isFileAt_congr hl]
    exact hfreshpre i hi
  have hbatch : batchOK false odir (dirEnsured fs odir) pre :=
    batchOK_of_goodPaths hgood' (Or.inr hfresh')
  set fs₁ := dirEnsured fs odir with hfs₁
  have hlook_after : ∀ q : String, (∀ i ∈ pre, q ≠ instPath odir i ∧ q ≠ seriesDir odir i) →
      q ≠ odir → fsLookup (fsAfter odir fs₁ pre) q = fsLookup fs q := by
    intro q hq hqo
    rw [fsAfter_lookup_other (fun i hi => ⟨(hq i hi).2, (hq i hi).1⟩)]
    rw [fsLookup_dirEnsured, if_neg hqo]
  have hdir_after : isFileAt (fsAfter odir fs₁ pre) (seriesDir odir d) = false := by
    refine fsAfter_isFileAt_false ?_ (fun i hi => hsep3 i hi)
    have hl : fsLookup fs₁ (seriesDir odir d) = fsLookup fs (seriesDir odir d) := by
      rw [hfs₁, fsLookup_dirEnsured, if_neg (seriesDir_ne_odir odir d)]
    rw [isFileAt_congr hl]
    exact hdird
  have hcol_after : isFileAt (dirEnsured (fsAfter odir fs₁ pre) (seriesDir odir d))
      (instPath odir d) = true := by
    have hl : fsLookup (dirEnsured (fsAfter odir fs₁ pre) (seriesDir odir d))
        (instPath odir d) = fsLookup (fsAfter odir fs₁ pre) (instPath odir d) := by
      rw [fsLookup_dirEnsured, if_neg hsepdd]
    rw [isFileAt_congr hl]
    rw [isFileAt_congr (hlook_after (instPath odir d)
      (fun i hi => ⟨hsep1 i hi, hsep2 i hi⟩) (instPath_ne_odir odir d))]
    exact hcol
  refine ⟨dirEnsured (fsAfter odir fs₁ pre) (seriesDir odir d), ?_, ?_⟩
  · simp only [_write_instances, hdf₀, Bool.false_eq_true, if_false,
      ensure_ouput_dir_ok hodir,
      writeLoop_collision hbatch hdir_after hcol_after]
  · intro p hp
    rw [fsLookup_dirEnsured, if_neg (Ne.symm (hsep3 p hp))]
    exact fsAfter_lookup_file hp hgoodpre.2.2.1 hgoodpre.2.2.2

/-! ### Sortedness of every table returned to a caller -/

/-- Every table returned by `_write_instances` (dry run or not) is
sorted by `SOPInstanceUID`. -/
theorem write_instances_sortedBy {dry : Bool} {dflt : String} {fs : FS}
    {instances : List Dataset} {out : Option String} {forced : Bool}
    {fs' : FS} {df : Frame}
    (h : _write_instances dry dflt fs instances out forced = (fs', .ok df)) :
    FrameSortedBy df "SOPInstanceUID" := by
  unfold _write_instances at h
  split at h
  · simp at h
  · rename_i df₀ hs
    have hsorted := sort_frame_sortedBy hs
    have hlen : ∀ r ∈ df₀.rows, df₀.columns.length ≤ r.length := by
      intro r hr
      have hmem := sort_frame_rows_mem hs r hr
      obtain ⟨d, hd, hx⟩ := List.mem_map.mp hmem
      obtain ⟨j, keyed, _, _, hcols, _⟩ := sort_frame_ok_elim hs
      rw [hcols, ← hx]
      simp [dicoms_to_frame]
    split at h
    · have hdf : df = df₀ := by
        simp only [Prod.mk.injEq, Except.ok.injEq] at h
        exact h.2.symm
      rw [hdf]
      exact hsorted
    · split at h
      · simp at h
      · split at h
        · simp at h
        · rename_i fs₂ sizes hloop
          have hdf : df = mergeFileSizes df₀ sizes := by
            simp only [Prod.mk.injEq, Except.ok.injEq] at h
            exact h.2.symm
          rw [hdf]
          exact mergeFileSizes_sortedBy hsorted hlen

/-- Every table returned by `_query_series` is sorted by
`SeriesInstanceUID`. -/
theorem query_series_sortedBy {env : Env} {f : Filters} {fz : Bool}
    {l o : Option Nat} {df : Frame} {calls : List SeriesQueryCall}
    (h : _query_series env f fz l o = .ok (df, calls)) :
    FrameSortedBy df "SeriesInstanceUID" := by
  unfold _query_series at h
  cases hq : _query_studies env f fz l o with
  | error e => rw [hq] at h; cases h
  | ok sdf =>
    rw [hq] at h
    simp only [bind, Except.bind] at h
    split at h
    · cases h
    · split at h
      · cases h
      · split at h
        · cases h
        · rename_i df' hs
          simp only [pure, Except.pure, Except.ok.injEq, Prod.mk.injEq] at h
          rw [← h.1]
          exact sort_frame_sortedBy hs

/-- Every table returned by `search_and_download_series` is sorted by
`SOPInstanceUID`. -/
theorem download_series_sortedBy {env : Env} {dry : Bool} {dflt : String}
    {fs : FS} {f : Filters} {mo fz : Bool} {l o : Option Nat}
    {out : Option String} {forced : Bool} {now : String} {fs' : FS} {df : Frame}
    (h : search_and_download_series env dry dflt fs f mo fz l o out forced now
      = (fs', .ok (some df))) : FrameSortedBy df "SOPInstanceUID" := by
  unfold search_and_download_series at h
  split at h
  · simp at h
  · split at h
    · simp at h
    · split at h
      · simp at h
      · split at h
        · simp at h
        · rename_i dfall hsort
          split at h
          · simp at h
          · simp only [Prod.mk.injEq, Except.ok.injEq, Option.some.injEq] at h
            rw [← h.2]
            exact sort_frame_sortedBy hsort

/-- Every table returned by `search_and_download_studies` is sorted by
`SOPInstanceUID`. -/
theorem download_studies_sortedBy {env : Env} {dry : Bool} {dflt : String}
    {fs : FS} {f : Filters} {mo fz : Bool} {l o : Option Nat}
    {out : Option String} {forced : Bool} {now : String} {fs' : FS} {df : Frame}
    (h : search_and_download_studies env dry dflt fs f mo fz l o out forced now
      = (fs', .ok (some df))) : FrameSortedBy df "SOPInstanceUID" := by
  unfold search_and_download_studies at h
  split at h
  · simp at h
  · split at h
    · simp at h
    · split at h
      · simp at h
      · split at h
        · simp at h
        · rename_i dfall hsort
          split at h
          · simp at h
          · simp only [Prod.mk.injEq, Except.ok.injEq, Option.some.injEq] at h
            rw [← h.2]
            exact sort_frame_sortedBy hsort

/-- The output directory is a directory after a write pass. -/
theorem fsAfter_odir_dir (odir : String) (fs : FS) (instances : List Dataset) :
    fsLookup (fsAfter odir (dirEnsured fs odir) instances) odir = some .dir := by
  rw [fsAfter_lookup_other (fun i _ =>
    ⟨Ne.symm (seriesDir_ne_odir odir i), Ne.symm (instPath_ne_odir odir i)⟩)]
  rw [fsLookup_dirEnsured, if_pos rfl]

/-- The flat write preconditions still hold after a successful pass over
the same batch: series directories are directories and target paths are
files. -/
theorem goodPaths_after_run {fs : FS} {odir : String} {instances : List Dataset}
    (hsep : ∀ i ∈ instances, ∀ i' ∈ instances, instPath odir i ≠ seriesDir odir i')
    (hdist : (instances.map (instPath odir)).Pairwise (· ≠ ·)) :
    goodPaths (fsAfter odir (dirEnsured fs odir) instances) odir instances := by
  refine ⟨?_, ?_, hsep, hdist⟩
  · intro i hi
    have hl := @fsAfter_lookup_dir odir instances (dirEnsured fs odir) i hi hsep
    simp [isFileAt, hl]
  · intro i hi
    have hl := @fsAfter_lookup_file odir instances (dirEnsured fs odir) i hi hsep hdist
    simp [isDirAt, hl]

/-! ### Claim theorems -/

/-- C4: against the claim, a dot-delimited identifier with a component
that fails integer conversion makes the sort key RAISE (the broken
`except` handler tests substring membership on the exception object,
which raises `TypeError`); the claimed string fallback is unreachable.
Whenever any component fails to parse, `uid_key` returns the
`TypeError`, and sorting a frame containing such an identifier raises
instead of falling back to an opaque string key. -/
theorem c4_uid_key_raises_on_non_numeric :
    (∀ s : String, (splitDots s).mapM pyInt = none →
      uid_key s = .error "TypeError: argument of type ValueError is not iterable") ∧
    uid_key "1.a.3" = .error "TypeError: argument of type ValueError is not iterable" ∧
    sort_frame_by_uid ⟨["SOPInstanceUID"], [[some (.str "1.a.3")]]⟩ "SOPInstanceUID"
      = .error "TypeError: argument of type ValueError is not iterable" := by
  refine ⟨?_, rfl, rfl⟩
  intro s h
  unfold uid_key
  rw [h]

/-- Witness for C4: the identifier `"1.a.3"` has a non-numeric
component, and the theorem applies to it. -/
theorem c4_uid_key_raises_on_non_numeric_witness :
    (splitDots "1.a.3").mapM pyInt = none ∧
    uid_key "1.a.3" = .error "TypeError: argument of type ValueError is not iterable" :=
  ⟨rfl, c4_uid_key_raises_on_non_numeric.1 "1.a.3" rfl⟩

/-- C5: the Result Normalizer `dicoms_to_frame` returns exactly the
requested columns in the requested order, one row per input record,
each cell holding `d.get(keyword)`; a keyword absent from a record
yields a null cell, never an error. -/
theorem c5_normalizer_shape :
    (∀ (dicoms : List Dataset) (keywords : List String),
      (dicoms_to_frame dicoms keywords).columns = keywords ∧
      (dicoms_to_frame dicoms keywords).rows.length = dicoms.length ∧
      ∀ i : Nat, (dicoms_to_frame dicoms keywords).rows[i]?
        = (dicoms[i]?).map (fun d => keywords.map (fun k => d.get k))) ∧
    (∀ (d : Dataset) (k : String), (∀ p ∈ d.attrs, p.1 ≠ k) → d.get k = none) := by
  constructor
  · intro dicoms keywords
    refine ⟨rfl, by simp [dicoms_to_frame], ?_⟩
    intro i
    simp [dicoms_to_frame]
  · intro d k h
    unfold Dataset.get
    rw [List.find?_eq_none.mpr (fun p hp => by
      simp only [beq_iff_eq]
      exact h p hp)]
    rfl

/-- Witness for C5: requested fields `["A", "B", "C"]` and a record
containing only `A` produce the row `A=v, B=null, C=null`. -/
theorem c5_normalizer_shape_witness :
    (∀ p ∈ (Dataset.mk [("A", DValue.str "v")]).attrs, p.1 ≠ "B") ∧
    (Dataset.mk [("A", DValue.str "v")]).get "B" = none ∧
    dicoms_to_frame [Dataset.mk [("A", DValue.str "v")]] ["A", "B", "C"]
      = ⟨["A", "B", "C"], [[some (.str "v"), none, none]]⟩ := by
  refine ⟨?_, c5_normalizer_shape.2 (Dataset.mk [("A", DValue.str "v")]) "B" ?_, rfl⟩
  all_goals
    intro p hp
    rcases List.mem_singleton.mp hp with rfl
    decide

/-- C6: `flatten` collapses a one-element sequence to its element and
passes every other sequence (empty or with two or more elements)
through unchanged. -/
theorem c6_flatten_collapse :
    (∀ v : DValue, flatten (some (.seq [v])) = some v) ∧
    flatten (some (.seq [])) = some (.seq []) ∧
    (∀ vs : List DValue, vs.length ≠ 1 → flatten (some (.seq vs)) = some (.seq vs)) := by
  refine ⟨fun v => rfl, rfl, ?_⟩
  intro vs h
  match vs with
  | [] => rfl
  | [v] => exact absurd rfl h
  | v₁ :: v₂ :: rest => rfl

/-- Witness for C6: a two-element sequence stays a two-element
sequence. -/
theorem c6_flatten_collapse_witness :
    ([DValue.str "CT", DValue.str "XA"].length ≠ 1) ∧
    flatten (some (.seq [DValue.str "CT", DValue.str "XA"]))
      = some (.seq [DValue.str "CT", DValue.str "XA"]) :=
  ⟨by decide, c6_flatten_collapse.2.2 [DValue.str "CT", DValue.str "XA"] (by decide)⟩

/-- C9 (counterexample): against the claim, when the target output
directory already exists as a directory and `forced` is false, the
writer does NOT raise: the batch is written successfully. -/
theorem c9_existing_dir_counterexample :
    isDirAt exFS0 "out" = true ∧
    ∃ fs' df, _write_instances false "downloads" exFS0 [exInstA] (some "out") false
        = (fs', .ok df) ∧
      fsLookup fs' (instPath "out" exInstA) = some (.dicomFile exInstA) := by
  exact ⟨rfl, _, _, rfl, rfl⟩

/-- C9 (amended): an output directory that already exists as a
directory is accepted without error for either value of `forced`
(directory creation is idempotent); `ensure_dir` errors only when the
path exists as a non-directory. -/
theorem c9_existing_dir_idempotent :
    (∀ (fs : FS) (p : String) (forced : Bool), isDirAt fs p = true →
      ensure_dir fs p forced = (fs, .ok true)) ∧
    (∀ (fs : FS) (odir dflt : String) (forced : Bool), isDirAt fs odir = true →
      _ensure_ouput_dir fs (some odir) dflt forced = (fs, .ok odir)) ∧
    (∀ (fs : FS) (p : String) (forced : Bool), isFileAt fs p = true →
      ensure_dir fs p forced = (fs, .error ("FileExistsError: " ++ p))) := by
  have h1 : ∀ (fs : FS) (p : String) (forced : Bool), isDirAt fs p = true →
      ensure_dir fs p forced = (fs, .ok true) := by
    intro fs p forced h
    unfold ensure_dir
    rw [if_pos h]
  refine ⟨h1, ?_, fun fs p forced h => ensure_dir_err forced h⟩
  intro fs odir dflt forced h
  unfold _ensure_ouput_dir
  simp only [Option.getD_some]
  rw [h1 fs odir forced h]

/-- Witness for C9 (amended): the already-existing directory `"out"`
is accepted without error. -/
theorem c9_existing_dir_idempotent_witness :
    isDirAt exFS0 "out" = true ∧
    ensure_dir exFS0 "out" false = (exFS0, .ok true) ∧
    _ensure_ouput_dir exFS0 (some "out") "downloads" false = (exFS0, .ok "out") :=
  ⟨rfl, c9_existing_dir_idempotent.1 exFS0 "out" false rfl,
    c9_existing_dir_idempotent.2.1 exFS0 "out" "downloads" false rfl⟩

/-- C10: `dicomize_json_results` does not forward its `meta_only`
parameter to the per-record conversion, so for both parameter values
the result is the meta-only conversion (empty-bytes bulk-data handler
applied); the flag would make a difference per record (a bulk attribute
stays a URI reference without a handler). -/
theorem c10_meta_only_not_forwarded :
    (∀ (data : List JsonRecord) (b : Bool),
      dicomize_json_results data b = dicomize_json_results data true ∧
      dicomize_json_results data b
        = data.map (fun d => datasetFromJson d (some (fun _ => "")))) ∧
    dicomize_json_result exInstRec false ≠ dicomize_json_result exInstRec true := by
  refine ⟨fun data b => ⟨rfl, rfl⟩, ?_⟩
  intro h
  simp [dicomize_json_result, datasetFromJson, exInstRec] at h

/-- C2 (code-bug evidence): when the study search matches zero studies,
`_query_series` does skip every per-study sub-query, but then
`pd.concat` of the empty list raises
`ValueError: No objects to concatenate` instead of returning the empty
result the spec (and the dead `len(df)==0` guard in
`search_and_download_series`) expects. -/
theorem c2_zero_studies_raises :
    ∀ (env : Env) (filters : Filters) (fuzzy : Bool) (limit offset : Option Nat),
      env.searchForStudies filters fuzzy limit offset = [] →
      _query_series env filters fuzzy limit offset
        = .error "ValueError: No objects to concatenate" := by
  intro env filters fuzzy limit offset h
  unfold _query_series _query_studies
  rw [h]
  rfl

/-- Witness for C2: a backend matching zero studies makes
`_query_series` raise the concatenation error. -/
theorem c2_zero_studies_raises_witness :
    exEnvEmpty.searchForStudies [] true none none = [] ∧
    _query_series exEnvEmpty [] true none none
      = .error "ValueError: No objects to concatenate" :=
  ⟨rfl, c2_zero_studies_raises exEnvEmpty [] true none none rfl⟩

/-- C1: for identifiers whose components all parse as integers, the
sort key compares them exactly by lexicographic order of their integer
component tuples (with the example chain
`"1.2.3" < "1.2.10" < "1.10.1"`), and every aggregate table returned
by a search or download operation is sorted by this key on its relevant
identifier column (study search by `StudyInstanceUID`, series searches
by `SeriesInstanceUID`, writer and bulk download tables by
`SOPInstanceUID`). -/
theorem c1_sort_key_and_sorted_tables :
    (∀ (A B : String) (ka kb : List Int), uid_key A = .ok ka → uid_key B = .ok kb →
      (tupleLtB ka kb = true ↔ List.Lex (· < ·) ka kb)) ∧
    (uid_key "1.2.3" = .ok [1, 2, 3] ∧ uid_key "1.2.10" = .ok [1, 2, 10] ∧
      uid_key "1.10.1" = .ok [1, 10, 1] ∧
      tupleLtB [1, 2, 3] [1, 2, 10] = true ∧ tupleLtB [1, 2, 10] [1, 10, 1] = true) ∧
    (∀ (env : Env) (f : Filters) (fz : Bool) (l o : Option Nat) (df : Frame),
      _query_studies env f fz l o = .ok df → FrameSortedBy df "StudyInstanceUID") ∧
    (∀ (env : Env) (u : Option DValue) (f : Filters) (fz : Bool) (l o : Option Nat)
      (df : Frame),
      _query_series_for_study env u f fz l o = .ok df →
        FrameSortedBy df "SeriesInstanceUID") ∧
    (∀ (env : Env) (f : Filters) (fz : Bool) (l o : Option Nat) (df : Frame)
      (calls : List SeriesQueryCall),
      _query_series env f fz l o = .ok (df, calls) →
        FrameSortedBy df "SeriesInstanceUID") ∧
    (∀ (dry : Bool) (dflt : String) (fs : FS) (instances : List Dataset)
      (out : Option String) (forced : Bool) (fs' : FS) (df : Frame),
      _write_instances dry dflt fs instances out forced = (fs', .ok df) →
        FrameSortedBy df "SOPInstanceUID") ∧
    (∀ (env : Env) (dry : Bool) (dflt : String) (fs : FS) (f : Filters)
      (mo fz : Bool) (l o : Option Nat) (out : Option String) (forced : Bool)
      (now : String) (fs' : FS) (df : Frame),
      search_and_download_series env dry dflt fs f mo fz l o out forced now
        = (fs', .ok (some df)) → FrameSortedBy df "SOPInstanceUID") ∧
    (∀ (env : Env) (dry : Bool) (dflt : String) (fs : FS) (f : Filters)
      (mo fz : Bool) (l o : Option Nat) (out : Option String) (forced : Bool)
      (now : String) (fs' : FS) (df : Frame),
      search_and_download_studies env dry dflt fs f mo fz l o out forced now
        = (fs', .ok (some df)) → FrameSortedBy df "SOPInstanceUID") := by
  refine ⟨fun A B ka kb _ _ => tupleLtB_iff_lex ka kb,
    ⟨rfl, rfl, rfl, by decide, by decide⟩, ?_, ?_, ?_, ?_, ?_, ?_⟩
  · intro env f fz l o df h
    unfold _query_studies at h
    exact sort_frame_sortedBy h
  · intro env u f fz l o df h
    unfold _query_series_for_study at h
    exact sort_frame_sortedBy h
  · intro env f fz l o df calls h
    exact query_series_sortedBy h
  · intro dry dflt fs instances out forced fs' df h
    exact write_instances_sortedBy h
  · intro env dry dflt fs f mo fz l o out forced now fs' df h
    exact download_series_sortedBy h
  · intro env dry dflt fs f mo fz l o out forced now fs' df h
    exact download_studies_sortedBy h

/-- Witness for C1: concrete instantiations of every conditional part
of the theorem. -/
theorem c1_sort_key_and_sorted_tables_witness :
    (uid_key "1.2.3" = .ok [1, 2, 3] ∧ uid_key "1.2.10" = .ok [1, 2, 10] ∧
      (tupleLtB [1, 2, 3] [1, 2, 10] = true ↔
        List.Lex (· < ·) ([1, 2, 3] : List Int) ([1, 2, 10] : List Int))) ∧
    (∃ df, _query_studies exEnv [] true none none = .ok df ∧
      FrameSortedBy df "StudyInstanceUID") ∧
    (∃ df, _query_series_for_study exEnv (some (.str "1.2")) [] true none none = .ok df ∧
      FrameSortedBy df "SeriesInstanceUID") ∧
    (∃ df calls, _query_series exEnv [] true none none = .ok (df, calls) ∧
      FrameSortedBy df "SeriesInstanceUID") ∧
    (∃ fs' df, _write_instances false "downloads" exFS0 [exInstA, exInstB]
        (some "out") false = (fs', .ok df) ∧ FrameSortedBy df "SOPInstanceUID") ∧
    (∃ fs' df, search_and_download_series exEnv true "downloads" exFS0 []
        true true none none (some "out") false "20200101" = (fs', .ok (some df)) ∧
      FrameSortedBy df "SOPInstanceUID") ∧
    (∃ fs' df, search_and_download_studies exEnv true "downloads" exFS0 []
        true true none none (some "out") false "20200101" = (fs', .ok (some df)) ∧
      FrameSortedBy df "SOPInstanceUID") := by
  refine ⟨⟨rfl, rfl,
      c1_sort_key_and_sorted_tables.1 "1.2.3" "1.2.10" [1, 2, 3] [1, 2, 10] rfl rfl⟩,
    ⟨_, rfl, c1_sort_key_and_sorted_tables.2.2.1 exEnv [] true none none _ rfl⟩,
    ⟨_, rfl, c1_sort_key_and_sorted_tables.2.2.2.1 exEnv (some (.str "1.2")) []
      true none none _ rfl⟩,
    ⟨_, _, rfl, c1_sort_key_and_sorted_tables.2.2.2.2.1 exEnv [] true none none _ _ rfl⟩,
    ⟨_, _, rfl, c1_sort_key_and_sorted_tables.2.2.2.2.2.1 false "downloads" exFS0
      [exInstA, exInstB] (some "out") false _ _ rfl⟩,
    ⟨_, _, rfl, c1_sort_key_and_sorted_tables.2.2.2.2.2.2.1 exEnv true "downloads"
      exFS0 [] true true none none (some "out") false "20200101" _ _ rfl⟩,
    ⟨_, _, rfl, c1_sort_key_and_sorted_tables.2.2.2.2.2.2.2 exEnv true "downloads"
      exFS0 [] true true none none (some "out") false "20200101" _ _ rfl⟩⟩

/-- C8: whenever the series-level search succeeds, it has issued exactly
one per-study sub-query for every row of the resolved study table, each
carrying the same filter set and fuzzy flag as the outer study search
and `limit=None`, `offset=None` (the outer limit and offset paginate
only the study search). -/
theorem c8_series_fanout :
    ∀ (env : Env) (filters : Filters) (fuzzy : Bool) (limit offset : Option Nat)
      (sdf df : Frame) (calls : List SeriesQueryCall),
      _query_studies env filters fuzzy limit offset = .ok sdf →
      sdf.rows.length ≥ 1 →
      _query_series env filters fuzzy limit offset = .ok (df, calls) →
      calls = (sdf.rows.map (fun r => cellAt sdf.columns r "StudyInstanceUID")).map
        (fun u => { study_uid := u, search_filters := filters, fuzzy := fuzzy,
                    limit := none, offset := none }) ∧
      calls.length = sdf.rows.length ∧
      ∀ c ∈ calls, c.search_filters = filters ∧ c.fuzzy = fuzzy ∧
        c.limit = none ∧ c.offset = none := by
  intro env filters fuzzy limit offset sdf df calls h1 _ h2
  have hcalls : calls = (sdf.rows.map (fun r => cellAt sdf.columns r "StudyInstanceUID")).map
      (fun u => { study_uid := u, search_filters := filters, fuzzy := fuzzy,
                  limit := none, offset := none }) := by
    unfold _query_series at h2
    rw [h1] at h2
    simp only [bind, Except.bind] at h2
    split at h2
    · cases h2
    · split at h2
      · cases h2
      · split at h2
        · cases h2
        · simp only [pure, Except.pure, Except.ok.injEq, Prod.mk.injEq] at h2
          exact h2.2.symm
  refine ⟨hcalls, ?_, ?_⟩
  · rw [hcalls]
    simp
  · intro c hc
    rw [hcalls] at hc
    obtain ⟨u, _, rfl⟩ := List.mem_map.mp hc
    exact ⟨rfl, rfl, rfl, rfl⟩

/-- Witness for C8: the two-study backend resolves two studies and the
series search issues exactly two sub-queries with the outer filters and
no limit or offset. -/
theorem c8_series_fanout_witness :
    ∃ sdf df calls,
      _query_studies exEnv [("Modality", "CT")] true (some 5) none = .ok sdf ∧
      sdf.rows.length ≥ 1 ∧
      _query_series exEnv [("Modality", "CT")] true (some 5) none = .ok (df, calls) ∧
      calls = (sdf.rows.map (fun r => cellAt sdf.columns r "StudyInstanceUID")).map
        (fun u => { study_uid := u, search_filters := [("Modality", "CT")],
                    fuzzy := true, limit := none, offset := none }) ∧
      calls.length = sdf.rows.length ∧
      ∀ c ∈ calls, c.search_filters = [("Modality", "CT")] ∧ c.fuzzy = true ∧
        c.limit = none ∧ c.offset = none := by
  refine ⟨_, _, _, rfl, by decide, rfl, ?_⟩
  exact c8_series_fanout exEnv [("Modality", "CT")] true (some 5) none _ _ _
    rfl (by decide) rfl

/-- C7: in dry-run mode the Output Writer performs no filesystem write
and returns the table a successful non-dry run would return with the
`FileSize` column absent (identical rows and identifiers otherwise),
and the CSV persistence step creates no file. -/
theorem c7_dry_run :
    (∀ (dflt : String) (fs : FS) (instances : List Dataset) (odir : String)
      (forced : Bool),
      sortableUIDs instances →
      isFileAt fs odir = false →
      goodPaths fs odir instances →
      (forced = true ∨ ∀ i ∈ instances, isFileAt fs (instPath odir i) = false) →
      (instances.map (fun i => i.attrStr "SOPInstanceUID")).Pairwise (· ≠ ·) →
      ∃ df₀ fs₁ df₁,
        _write_instances true dflt fs instances (some odir) forced = (fs, .ok df₀) ∧
        _write_instances false dflt fs instances (some odir) forced = (fs₁, .ok df₁) ∧
        df₀.columns = INSTANCE_KEYS ∧
        "FileSize" ∉ df₀.columns ∧
        df₁.columns = df₀.columns ++ ["FileSize"] ∧
        df₁.rows.map List.dropLast = df₀.rows) ∧
    (∀ (dflt : String) (fs : FS) (df : Frame) (out : Option String)
      (label now : String),
      _write_table true dflt fs df out label now = (fs, .ok ())) := by
  constructor
  · intro dflt fs instances odir forced hsort hodir hgood hfresh hsops
    obtain ⟨df₀, df₁, hdf₀, hrun, hcols, hdrop, _⟩ :=
      @write_instances_ok dflt fs instances odir forced hsort hodir hgood hfresh hsops
    have hcols₀ : df₀.columns = INSTANCE_KEYS := by
      obtain ⟨j, keyed, _, _, hc, _⟩ := sort_frame_ok_elim hdf₀
      rw [hc]
      rfl
    refine ⟨df₀, _, df₁, write_instances_dry hdf₀, hrun, hcols₀, ?_, ?_, hdrop⟩
    · rw [hcols₀]
      decide
    · rw [hcols, hcols₀]
  · intro dflt fs df out label now
    rfl

/-- Witness for C7: a concrete two-instance batch written to an
existing output directory, dry and non-dry. -/
theorem c7_dry_run_witness :
    (∃ df₀ fs₁ df₁,
      _write_instances true "downloads" exFS0 [exInstA, exInstB] (some "out") false
        = (exFS0, .ok df₀) ∧
      _write_instances false "downloads" exFS0 [exInstA, exInstB] (some "out") false
        = (fs₁, .ok df₁) ∧
      df₀.columns = INSTANCE_KEYS ∧
      "FileSize" ∉ df₀.columns ∧
      df₁.columns = df₀.columns ++ ["FileSize"] ∧
      df₁.rows.map List.dropLast = df₀.rows) ∧
    _write_table true "downloads" exFS0 ⟨["A"], []⟩ (some "out") "lbl" "20200101"
      = (exFS0, .ok ()) := by
  constructor
  · exact c7_dry_run.1 "downloads" exFS0 [exInstA, exInstB] "out" false
      (by
        intro d hd
        rcases List.mem_cons.mp hd with rfl | hd'
        · exact ⟨_, rfl⟩
        · rcases List.mem_singleton.mp hd' with rfl
          exact ⟨_, rfl⟩)
      rfl
      ⟨by decide, by decide, by decide, by decide⟩
      (Or.inr (by decide))
      (by decide)
  · exact c7_dry_run.2 "downloads" exFS0 ⟨["A"], []⟩ (some "out") "lbl" "20200101"

/-- C3: the Output Writer collision policy.  (1) With `forced` false,
an already-existing target file raises `FileExistsError`, aborting the
whole batch, and the files written earlier in the same batch remain in
place (no rollback).  (2) With `forced` true, existing target files are
replaced unconditionally and the write succeeds.  (3) Writing the same
object set twice with `forced` false succeeds and then fails with the
collision error.  (4) Writing it twice with `forced` true succeeds both
times and the target files hold the rewritten objects. -/
theorem c3_overwrite_policy :
    (∀ (dflt : String) (fs : FS) (odir : String) (pre : List Dataset) (d : Dataset)
      (post : List Dataset),
      sortableUIDs (pre ++ d :: post) →
      isFileAt fs odir = false →
      goodPaths fs odir pre →
      (∀ i ∈ pre, isFileAt fs (instPath odir i) = false) →
      (∀ i ∈ pre, instPath odir d ≠ instPath odir i) →
      (∀ i ∈ pre, instPath odir d ≠ seriesDir odir i) →
      (∀ i ∈ pre, seriesDir odir d ≠ instPath odir i) →
      instPath odir d ≠ seriesDir odir d →
      isFileAt fs (seriesDir odir d) = false →
      isFileAt fs (instPath odir d) = true →
      ∃ fs', _write_instances false dflt fs (pre ++ d :: post) (some odir) false =
        (fs', .error ("FileExistsError: File already exists: " ++ instPath odir d)) ∧
        ∀ p ∈ pre, fsLookup fs' (instPath odir p) = some (.dicomFile p)) ∧
    (∀ (dflt : String) (fs : FS) (odir : String) (instances : List Dataset),
      sortableUIDs instances →
      isFileAt fs odir = false →
      goodPaths fs odir instances →
      (instances.map (fun i => i.attrStr "SOPInstanceUID")).Pairwise (· ≠ ·) →
      ∃ fs' df, _write_instances false dflt fs instances (some odir) true
          = (fs', .ok df) ∧
        ∀ i ∈ instances, fsLookup fs' (instPath odir i) = some (.dicomFile i)) ∧
    (∀ (dflt : String) (fs : FS) (odir : String) (d : Dataset) (rest : List Dataset),
      sortableUIDs (d :: rest) →
      isFileAt fs odir = false →
      goodPaths fs odir (d :: rest) →
      (∀ i ∈ d :: rest, isFileAt fs (instPath odir i) = false) →
      ((d :: rest).map (fun i => i.attrStr "SOPInstanceUID")).Pairwise (· ≠ ·) →
      ∃ fs₁ df₁ fs₂,
        _write_instances false dflt fs (d :: rest) (some odir) false
          = (fs₁, .ok df₁) ∧
        _write_instances false dflt fs₁ (d :: rest) (some odir) false =
          (fs₂, .error ("FileExistsError: File already exists: " ++ instPath odir d))) ∧
    (∀ (dflt : String) (fs : FS) (odir : String) (instances : List Dataset),
      sortableUIDs instances →
      isFileAt fs odir = false →
      goodPaths fs odir instances →
      (instances.map (fun i => i.attrStr "SOPInstanceUID")).Pairwise (· ≠ ·) →
      ∃ fs₁ df₁ fs₂ df₂,
        _write_instances false dflt fs instances (some odir) true = (fs₁, .ok df₁) ∧
        _write_instances false dflt fs₁ instances (some odir) true = (fs₂, .ok df₂) ∧
        ∀ i ∈ instances, fsLookup fs₂ (instPath odir i) = some (.dicomFile i)) := by
  have hgoodnil : ∀ (fs : FS) (odir : String), goodPaths fs odir [] := by
    intro fs odir
    refine ⟨?_, ?_, ?_, ?_⟩ <;> simp [goodPaths]
  have hodir_after : ∀ (fs : FS) (odir : String) (instances : List Dataset),
      isFileAt (fsAfter odir (dirEnsured fs odir) instances) odir = false := by
    intro fs odir instances
    simp [isFileAt, fsAfter_odir_dir]
  refine ⟨?_, ?_, ?_, ?_⟩
  · intro dflt fs odir pre d post hsort hodir hgood hfresh hs1 hs2 hs3 hsdd hdird hcol
    exact write_instances_collision hsort hodir hgood hfresh hs1 hs2 hs3 hsdd hdird hcol
  · intro dflt fs odir instances hsort hodir hgood hsops
    obtain ⟨df₀, df, hdf₀, hrun, _, _, _⟩ :=
      @write_instances_ok dflt fs instances odir true hsort hodir hgood (Or.inl rfl) hsops
    refine ⟨_, df, hrun, ?_⟩
    intro i hi
    exact @fsAfter_lookup_file odir instances (dirEnsured fs odir) i hi
      hgood.2.2.1 hgood.2.2.2
  · intro dflt fs odir d rest hsort hodir hgood hfresh hsops
    obtain ⟨df₀, df₁, hdf₀, hrun1, _, _, _⟩ :=
      @write_instances_ok dflt fs (d :: rest) odir false hsort hodir hgood
        (Or.inr hfresh) hsops
    have hmem : d ∈ d :: rest := List.mem_cons_self d rest
    have hsep := hgood.2.2.1
    have hdist := hgood.2.2.2
    have hdird₂ : isFileAt (fsAfter odir (dirEnsured fs odir) (d :: rest))
        (seriesDir odir d) = false := by
      have hl := @fsAfter_lookup_dir odir (d :: rest) (dirEnsured fs odir) d hmem hsep
      simp [isFileAt, hl]
    have hcol₂ : isFileAt (fsAfter odir (dirEnsured fs odir) (d :: rest))
        (instPath odir d) = true := by
      have hl := @fsAfter_lookup_file odir (d :: rest) (dirEnsured fs odir) d hmem
        hsep hdist
      simp [isFileAt, hl]
    obtain ⟨fs₂, hrun2, _⟩ :=
      @write_instances_collision dflt (fsAfter odir (dirEnsured fs odir) (d :: rest))
        odir [] d rest hsort (hodir_after fs odir (d :: rest))
        (hgoodnil _ odir)
        (fun i hi => absurd hi (List.not_mem_nil i))
        (fun i hi => absurd hi (List.not_mem_nil i))
        (fun i hi => absurd hi (List.not_mem_nil i))
        (fun i hi => absurd hi (List.not_mem_nil i))
        (hsep d hmem d hmem) hdird₂ hcol₂
    exact ⟨_, df₁, fs₂, hrun1, hrun2⟩
  · intro dflt fs odir instances hsort hodir hgood hsops
    obtain ⟨df₀, df₁, hdf₀, hrun1, _, _, _⟩ :=
      @write_instances_ok dflt fs instances odir true hsort hodir hgood
        (Or.inl rfl) hsops
    have hgood₂ : goodPaths (fsAfter odir (dirEnsured fs odir) instances)
        odir instances := goodPaths_after_run hgood.2.2.1 hgood.2.2.2
    obtain ⟨df₀', df₂, hdf₀', hrun2, _, _, _⟩ :=
      @write_instances_ok dflt (fsAfter odir (dirEnsured fs odir) instances)
        instances odir true hsort (hodir_after fs odir instances) hgood₂
        (Or.inl rfl) hsops
    refine ⟨_, df₁, _, df₂, hrun1, hrun2, ?_⟩
    intro i hi
    exact @fsAfter_lookup_file odir instances
      (dirEnsured (fsAfter odir (dirEnsured fs odir) instances) odir) i hi
      hgood.2.2.1 hgood.2.2.2

/-- Witness for C3: concrete instantiations of all four parts
(collision with one earlier file, forced replacement over an existing
file, writing the same two-object batch twice without and with
`forced`). -/
theorem c3_overwrite_policy_witness :
    (∃ fs', _write_instances false "downloads" exFS1 [exInstB, exInstA] (some "out") false
        = (fs', .error ("FileExistsError: File already exists: " ++ instPath "out" exInstA)) ∧
      ∀ p ∈ [exInstB], fsLookup fs' (instPath "out" p) = some (.dicomFile p)) ∧
    (∃ fs' df, _write_instances false "downloads" exFS1 [exInstA, exInstB] (some "out") true
        = (fs', .ok df) ∧
      ∀ i ∈ [exInstA, exInstB], fsLookup fs' (instPath "out" i) = some (.dicomFile i)) ∧
    (∃ fs₁ df₁ fs₂,
      _write_instances false "downloads" exFS0 [exInstA, exInstB] (some "out") false
        = (fs₁, .ok df₁) ∧
      _write_instances false "downloads" fs₁ [exInstA, exInstB] (some "out") false =
        (fs₂, .error ("FileExistsError: File already exists: " ++ instPath "out" exInstA))) ∧
    (∃ fs₁ df₁ fs₂ df₂,
      _write_instances false "downloads" exFS0 [exInstA, exInstB] (some "out") true
        = (fs₁, .ok df₁) ∧
      _write_instances false "downloads" fs₁ [exInstA, exInstB] (some "out") true
        = (fs₂, .ok df₂) ∧
      ∀ i ∈ [exInstA, exInstB], fsLookup fs₂ (instPath "out" i) = some (.dicomFile i)) := by
  have hsortBA : sortableUIDs ([exInstB] ++ exInstA :: []) := by
    intro x hx
    rcases List.mem_cons.mp hx with rfl | hx'
    · exact ⟨_, rfl⟩
    · rcases List.mem_singleton.mp hx' with rfl
      exact ⟨_, rfl⟩
  have hsortAB : sortableUIDs [exInstA, exInstB] := by
    intro x hx
    rcases List.mem_cons.mp hx with rfl | hx'
    · exact ⟨_, rfl⟩
    · rcases List.mem_singleton.mp hx' with rfl
      exact ⟨_, rfl⟩
  have hsortAB' : sortableUIDs (exInstA :: [exInstB]) := hsortAB
  refine ⟨?_, ?_, ?_, ?_⟩
  · exact c3_overwrite_policy.1 "downloads" exFS1 "out" [exInstB] exInstA []
      hsortBA rfl
      ⟨by decide, by decide, by decide, by decide⟩
      (by decide) (by decide) (by decide) (by decide) (by decide) rfl rfl
  · exact c3_overwrite_policy.2.1 "downloads" exFS1 "out" [exInstA, exInstB]
      hsortAB rfl
      ⟨by decide, by decide, by decide, by decide⟩
      (by decide)
  · exact c3_overwrite_policy.2.2.1 "downloads" exFS0 "out" exInstA [exInstB]
      hsortAB' rfl
      ⟨by decide, by decide, by decide, by decide⟩
      (by decide) (by decide)
  · exact c3_overwrite_policy.2.2.2 "downloads" exFS0 "out" [exInstA, exInstB]
      hsortAB rfl
      ⟨by decide, by decide, by decide, by decide⟩
      (by decide)

end KheopsClient
